import Mathlib

/-!
# PN532 over BLE: frame codec and command/response correlation

Shallow embedding of `src/src/pn532_ble.cpp` / `pn532_ble.h`.

Conventions of the embedding

* A byte (`uint8_t`) is a `Nat`; every place where the C++ code narrows a
  value to 8 or 16 bits carries an explicit `% 256` / `% 65536`.
* A `uint8_t *` together with the number of valid bytes behind it is a
  `List Nat`; pointer arithmetic `p + k` is `List.drop k`.
* A read outside the valid bytes (past the end of a vector, or of a part of
  a fixed array that was never written) has no defined value in C++.  Every
  function that can perform such a read returns `Option`, and `none` stands
  for "the execution left defined behaviour".
* For an 8-bit `x`, the C++ expression `(0x00 - x) & 0xFF` is
  `(256 - x) % 256`.
* The notification callback runs on the BLE task.  The embedding lets it run
  only while the caller sits in `delay`: each call of `delay` advances the
  clock by its argument and handles the chunks scheduled for it, in order.
  The clock advances by `delay` alone.
* The serial console output and the `_debug` flag have no influence on the
  state and are left out.
-/

namespace PN532

/-! ## Constants of `pn532_ble.h` (lines 23-27) -/

def DATA_PREAMBLE : Nat := 0x00
def DATA_START_CODE : List Nat := [0x00, 0xFF]
def DATA_TIF_SEND : Nat := 0xD4
def DATA_TIF_RECEIVE : Nat := 0xD5
def DATA_POSTAMBLE : Nat := 0x00

/-! ## Data model -/

/-- Record `CmdResponse` of `pn532_ble.h` (lines 100-107).  `raw` and `data`
hold the bytes that were actually copied into the fixed arrays `raw[250]`
and `data[200]`; `status` is never assigned anywhere in the source, so it
stays `none`. -/
structure CmdResponse where
  raw : List Nat
  length : Nat
  command : Nat
  status : Option Nat
  dataSize : Nat
  data : List Nat
  deriving DecidableEq, Repr

/-- The part of the `PN532_BLE` object the protocol engine works on, plus
the three things the engine sees of its surroundings:
`millis` is the value of the Arduino clock, `transmitted` is the list of
frames handed to `chrWrite->writeValue`, and `incoming` is what the BLE
stack will deliver: one entry per call of `delay`, holding the notification
chunks that arrive during that call. -/
structure Session where
  pn532bleBuffer : List Nat
  pn532Responses : List CmdResponse
  cmdResponse : CmdResponse
  millis : Nat
  transmitted : List (List Nat)
  incoming : List (List (List Nat))
  deriving DecidableEq, Repr

/-- A session with empty receive buffer and response list, clock at 0, nothing
transmitted and nothing scheduled to arrive. -/
def freshSession : Session :=
  { pn532bleBuffer := [], pn532Responses := [],
    cmdResponse := { raw := [], length := 0, command := 0, status := none, dataSize := 0, data := [] },
    millis := 0, transmitted := [], incoming := [] }

/-! ## Checksum (cpp 791-799) -/

/-- The `for` loop of `dcs`: `remaining` iterations are left, `i` is the loop
index and `checksum` the running 8-bit sum. -/
def dcsLoop (data : List Nat) : Nat → Nat → Nat → Option Nat
  | 0, _, checksum => some checksum
  | remaining + 1, i, checksum =>
    match data[i]? with
    | none => none
    | some b => dcsLoop data remaining (i + 1) ((checksum + b) % 256)

/-- Function `PN532_BLE::dcs(data, length)`: `(0x00 - checksum) & 0xFF`. -/
def dcs (data : List Nat) (length : Nat) : Option Nat :=
  (dcsLoop data length 0 0).map fun checksum => (256 - checksum) % 256

/-! ## Outbound frame (cpp 229-269) -/

/-- Lines 238-255 of `writeCommand`: the byte vector `frame`.  The payload
is the range `[data, data + length)`; every caller in the source passes a
vector together with its own size, so the range is the whole list. -/
def buildFrame (cmd : Nat) (data : List Nat) : Option (List Nat) :=
  let commands : List Nat := [DATA_TIF_SEND, cmd % 256] ++ data
  let frame : List Nat := [DATA_PREAMBLE] ++ DATA_START_CODE
  let len : Nat := commands.length % 256
  let length_check_sum : Nat := (256 - len) % 256
  let frame := frame ++ [len] ++ [length_check_sum] ++ commands
  match dcs commands commands.length with
  | none => none
  | some dcs_value => some (frame ++ [dcs_value] ++ [DATA_POSTAMBLE])

/-! ## Inbound frames (cpp 39-115) -/

/-- Function `PN532_BLE::isCompleteFrame(pData, length)`.  The result is the
returned flag together with the session, because the length-checksum branch
clears `pn532bleBuffer`.  In C++ `!=` binds tighter than `&`, so the test of
line 61 is `(len + lcs) & (0xFF != 0x00)`. -/
def isCompleteFrame (s : Session) (pData : List Nat) (length : Nat) :
    Option (Bool × Session) :=
  if length < 10 then some (false, s)
  else
    match pData[9]?, pData[10]? with
    | some len, some lcs =>
      if len + 13 < length then some (false, s)
      else if (len + lcs) &&& (if (0xFF : Nat) ≠ 0x00 then 1 else 0) ≠ 0 then
        some (false, { s with pn532bleBuffer := [] })
      else
        match pData[length - 2]?, dcs (pData.drop 11) len with
        | some dcsValue, some calculatedDcs =>
          if calculatedDcs ≠ dcsValue then some (false, s) else some (true, s)
        | _, _ => none
    | _, _ => none

/-- The `memcpy(rsp.data, rsp.raw + 13, rsp.dataSize)` of line 110, guarded
by `rsp.dataSize > 0`: `data` has 200 bytes, and the source bytes must have
been written into `raw` before. -/
def copyData (raw : List Nat) (dataSize : Nat) : Option (List Nat) :=
  if dataSize > 0 then
    if dataSize > 200 then none
    else if (raw.drop 13).length < dataSize then none
    else some ((raw.drop 13).take dataSize)
  else some []

/-- Function `PN532_BLE::NotifyCallBack(_, pData, length, _)`; the chunk
`[pData, pData + length)` is the list `pData`. -/
def NotifyCallBack (s : Session) (pData : List Nat) : Option Session :=
  let s := { s with pn532bleBuffer := s.pn532bleBuffer ++ pData }
  match isCompleteFrame s s.pn532bleBuffer s.pn532bleBuffer.length with
  | none => none
  | some (false, s) => some s
  | some (true, s) =>
    -- memcpy(rsp.raw, pn532bleBuffer.data(), pn532bleBuffer.size()), raw[250]
    if s.pn532bleBuffer.length > 250 then none
    else
      let raw := s.pn532bleBuffer
      match raw[12]?, raw[9]? with
      | some b12, some dataSize =>
        let command := (b12 + 65536 - 1) % 65536
        let dataSize := (dataSize + 256 - 2) % 256
        match copyData raw dataSize with
        | none => none
        | some data =>
          let rsp : CmdResponse :=
            { raw := raw, length := raw.length, command := command, status := none,
              dataSize := dataSize, data := data }
          some { s with pn532Responses := s.pn532Responses ++ [rsp], pn532bleBuffer := [] }
      | _, _ => none

/-- Feeding a sequence of notification chunks, one call of `NotifyCallBack`
per chunk. -/
def feedChunks (s : Session) : List (List Nat) → Option Session
  | [] => some s
  | chunk :: rest =>
    match NotifyCallBack s chunk with
    | none => none
    | some s => feedChunks s rest

/-! ## Waiting for the reply (cpp 276-349) -/

/-- Arduino `delay(ms)`: the clock advances by `ms`, and the notifications
scheduled for this call are handled by `NotifyCallBack` meanwhile. -/
def delay (ms : Nat) (s : Session) : Option Session :=
  match s.incoming with
  | [] => some { s with millis := s.millis + ms }
  | chunks :: later => feedChunks { s with millis := s.millis + ms, incoming := later } chunks

/-- The polling loop of `checkResponse` (lines 279-291).  The flag tells
whether the loop was left because a response is present (`true`) or by the
4000 ms timeout (`false`).  Each iteration advances the clock by 10, so at
most 402 iterations run; the first argument bounds the iterations. -/
def checkResponseWait (startTime : Nat) : Nat → Session → Option (Bool × Session)
  | 0, _ => none
  | fuel + 1, s =>
    if s.pn532Responses.isEmpty then
      if s.millis - startTime > 4000 then some (false, s)
      else
        match delay 10 s with
        | none => none
        | some s => checkResponseWait startTime fuel s
    else some (true, s)

/-- Function `PN532_BLE::checkResponse(cmd)`. -/
def checkResponse (cmd : Nat) (s : Session) : Option (Bool × Session) :=
  match checkResponseWait s.millis 402 s with
  | none => none
  | some (false, s) => some (false, s)
  | some (true, s) =>
    match s.pn532Responses.find? (fun response => response.command == cmd) with
    | some it => some (true, { s with cmdResponse := it, pn532Responses := [] })
    | none => some (false, s)

/-- Lines 231-264 of `writeCommand`: clear the receive buffer, build the
frame and hand it to the write characteristic.  `writeValue` is the answer
of `chrWrite->writeValue` for a frame; the result carries `writeRes`. -/
def transmitCommand (writeValue : List Nat → Bool) (cmd : Nat) (data : List Nat)
    (s : Session) : Option (Bool × Session) :=
  let s := { s with pn532bleBuffer := [] }
  match buildFrame cmd data with
  | none => none
  | some frame => some (writeValue frame, { s with transmitted := s.transmitted ++ [frame] })

/-- Function `PN532_BLE::writeCommand(cmd, data, length)`: transmit, then
`delay(10)`, then `checkResponse(uint8_t(cmd))`. -/
def writeCommand (writeValue : List Nat → Bool) (cmd : Nat) (data : List Nat)
    (s : Session) : Option (Bool × Session) :=
  match transmitCommand writeValue cmd data s with
  | none => none
  | some (writeRes, s) =>
    match delay 10 s with
    | none => none
    | some s =>
      match checkResponse (cmd % 256) s with
      | none => none
      | some (res, s) => some (writeRes && res, s)

/-- A quiet stretch of the polling loop of `checkResponse`: `n` successive
iterations that find `pn532Responses` empty and run `delay(10)`; the result
is the session after the last of these delays (`none` when one of the
iterations finds a response, or a callback leaves defined behaviour). -/
def idlePolls : Nat → Session → Option Session
  | 0, s => some s
  | n + 1, s =>
    if s.pn532Responses.isEmpty then
      match delay 10 s with
      | none => none
      | some s => idlePolls n s
    else none

/-! ## Command codes (`enum Command`, h 29-46) -/

def Diagnose : Nat := 0x00
def GetFirmwareVersion : Nat := 0x02
def ReadRegister : Nat := 0x06
def WriteRegister : Nat := 0x08
def SAMConfiguration : Nat := 0x14
def PowerDown : Nat := 0x16
def InDataExchange : Nat := 0x40
def InCommunicateThru : Nat := 0x42
def InListPassiveTarget : Nat := 0x4A
def InDeselect : Nat := 0x44
def InRelease : Nat := 0x52
def InSelect : Nat := 0x54
def InAutoPoll : Nat := 0x60
def TgInitAsTarget : Nat := 0x8C
def TgGetData : Nat := 0x86
def TgSetData : Nat := 0x8E

/-! ## CRC-A (cpp 801-815) -/

/-- One iteration of the loop of `appendCrcA`: `crc` is the 16-bit register,
`b` the byte `data[i]`, `ch` an 8-bit temporary. -/
def crcAStep (crc : Nat) (b : Nat) : Nat :=
  let ch := (b ^^^ (crc &&& 0xFF)) % 256
  let ch := (ch ^^^ (ch <<< 4)) &&& 0xFF
  ((crc >>> 8) ^^^ (ch <<< 8) ^^^ (ch <<< 3) ^^^ (ch >>> 4)) % 65536

/-- Function `PN532_BLE::appendCrcA(data)`: the vector after the two
`push_back` calls. -/
def appendCrcA (data : List Nat) : List Nat :=
  let crc := data.foldl crcAStep 0x6363
  let crc := crc &&& 0xFFFF
  data ++ [(crc &&& 0xFF) % 256, (crc >>> 8) % 256]

/-! ## Hex strings (cpp 840-850) -/

/-- Modelled from the spec: the Arduino constructor `String(value, HEX)` for an
`unsigned char` belongs to the Arduino core, not to this repository.  It
gives the digits of `value` in base 16, lowercase, without leading zero. -/
def hexString (value : Nat) : String :=
  String.mk (Nat.toDigits 16 value)

/-- Modelled from the spec: the Arduino method `String::toUpperCase()` belongs
to the Arduino core, not to this repository.  It replaces every character
by its uppercase form. -/
def toUpperCase (str : String) : String :=
  String.mk (str.data.map Char.toUpper)

/-- The loop of `bytes2HexString` (cpp 843-847): `remaining` iterations are
left, `i` is the loop index; `(*data)[i]` must be inside the vector. -/
def bytes2HexLoop (data : List Nat) : Nat → Nat → String → Option String
  | 0, _, hex => some hex
  | remaining + 1, i, hex =>
    match data[i]? with
    | none => none
    | some b =>
      let hex := hex ++ (if b < 0x10 then "0" else "")
      let hex := hex ++ hexString b
      bytes2HexLoop data remaining (i + 1) hex

/-- Function `PN532_BLE::bytes2HexString(data, dataSize)`. -/
def bytes2HexString (data : List Nat) (dataSize : Nat) : Option String :=
  (bytes2HexLoop data dataSize 0 "").map toUpperCase

/-! ## Raw exchanges with the tag (cpp 484-529) -/

/-- Function `PN532_BLE::sendData(data, append_crc)`.  The result of
`writeCommand` is not looked at; the returned vector is
`cmdResponse.data[0 .. cmdResponse.dataSize)`. -/
def sendData (writeValue : List Nat → Bool) (data : List Nat) (append_crc : Bool)
    (s : Session) : Option (List Nat × Session) :=
  let data := if append_crc then appendCrcA data else data
  match writeCommand writeValue InCommunicateThru data s with
  | none => none
  | some (_, s) =>
    if s.cmdResponse.dataSize ≤ s.cmdResponse.data.length then
      some (s.cmdResponse.data.take s.cmdResponse.dataSize, s)
    else none

/-- Function `PN532_BLE::send7bit(data)`. -/
def send7bit (writeValue : List Nat → Bool) (data : List Nat) (s : Session) :
    Option (List Nat × Session) :=
  match writeCommand writeValue WriteRegister [0x63, 0x3D, 0x07] s with
  | none => none
  | some (_, s) =>
    match sendData writeValue data false s with
    | none => none
    | some (responseData, s) =>
      match writeCommand writeValue WriteRegister [0x63, 0x3D, 0x00] s with
      | none => none
      | some (_, s) => some (responseData, s)

/-- Function `PN532_BLE::resetRegister()`. -/
def resetRegister (writeValue : List Nat → Bool) (s : Session) : Option (Bool × Session) :=
  writeCommand writeValue WriteRegister [0x63, 0x02, 0x00, 0x63, 0x03, 0x00] s

/-- Function `PN532_BLE::halt()`. -/
def halt (writeValue : List Nat → Bool) (s : Session) : Option (Bool × Session) :=
  match resetRegister writeValue s with
  | none => none
  | some (_, s) =>
    match sendData writeValue [0x50, 0x00] false s with
    | none => none
    | some (_, s) => some (true, s)

/-- Function `PN532_BLE::isGen1A()`. -/
def isGen1A (writeValue : List Nat → Bool) (s : Session) : Option (Bool × Session) :=
  match halt writeValue s with
  | none => none
  | some (_, s) =>
    match send7bit writeValue [0x40] s with
    | none => none
    | some (unlock1, s) =>
      if unlock1.length = 2 ∧ unlock1[1]? = some 0x0A then
        match delay 10 s with
        | none => none
        | some s =>
          match sendData writeValue [0x43] false s with
          | none => none
          | some (unlock2, s) =>
            if unlock2.length = 2 ∧ unlock2[1]? = some 0x0A then
              match delay 10 s with
              | none => none
              | some s => some (true, s)
            else some (false, s)
      else some (false, s)

/-! ## ISO14443A scan and select (cpp 361-377, 413-443, 531-612) -/

/-- Record `Iso14aTagInfo` (h 113-122). -/
structure Iso14aTagInfo where
  atqa : List Nat
  sak : Nat
  uidSize : Nat
  uid : List Nat
  uid_hex : String
  sak_hex : String
  atqa_hex : String
  type : String
  deriving DecidableEq, Repr

/-- The value-initialised record `PN532_BLE::Iso14aTagInfo()`. -/
def Iso14aTagInfo.empty : Iso14aTagInfo :=
  { atqa := [], sak := 0, uidSize := 0, uid := [], uid_hex := "", sak_hex := "",
    atqa_hex := "", type := "" }

/-- Function `PN532_BLE::getTagType()`, as a function of `hf14aTagInfo.sak`. -/
def getTagType (sak : Nat) : String :=
  if sak = 0x09 then "MIFARE Mini"
  else if sak = 0x08 ∨ sak = 0x88 then "MIFARE 1K"
  else if sak = 0x18 then "MIFARE 4K"
  else if sak = 0x00 then "MIFARE Ultralight"
  else "Unknown"

/-- The loop of lines 432-436 of `parseHf14aScan` over the bytes of `uid`. -/
def uidHexLoop : List Nat → String → String
  | [], hex => hex
  | b :: rest, hex =>
    let hex := hex ++ (if b < 0x10 then "0" else "")
    let hex := hex ++ hexString b
    uidHexLoop rest hex

/-- Function `PN532_BLE::parseHf14aScan(data, dataSize)`.  It assigns every
field of the member `hf14aTagInfo` and returns a copy; the result is that
record.  `data` holds the bytes of `cmdResponse.data` that were written. -/
def parseHf14aScan (data : List Nat) (_dataSize : Nat) : Option Iso14aTagInfo :=
  match data[2]?, data[3]?, data[4]?, data[5]? with
  | some d2, some d3, some sak, some uidSize =>
    if data.length < 6 + uidSize then none
    else
      let atqa := [d2, d3]
      let uid := (data.drop 6).take uidSize
      let uid_hex := toUpperCase (uidHexLoop uid "")
      match bytes2HexString atqa 2, bytes2HexString [sak] 1 with
      | some atqa_hex, some sak_hex =>
        some { atqa := atqa, sak := sak, uidSize := uidSize, uid := uid, uid_hex := uid_hex,
               sak_hex := sak_hex, atqa_hex := atqa_hex, type := getTagType sak }
      | _, _ => none
  | _, _, _, _ => none

/-- Function `PN532_BLE::hf14aScan()`. -/
def hf14aScan (writeValue : List Nat → Bool) (s : Session) : Option (Iso14aTagInfo × Session) :=
  match writeCommand writeValue InListPassiveTarget [0x01, 0x00] s with
  | none => none
  | some (false, s) => some (Iso14aTagInfo.empty, s)
  | some (true, s) =>
    match parseHf14aScan s.cmdResponse.data s.cmdResponse.dataSize with
    | none => none
    | some info => some (info, s)

/-- Lines 584-611 of `selectTag`: the branch for a 7-byte UID. -/
def selectTagCL2 (writeValue : List Nat → Bool) (s : Session) : Option (Bool × Session) :=
  match sendData writeValue [0x95, 0x20] false s with
  | none => none
  | some (anti_coll2_result, s) =>
    match anti_coll2_result[0]? with
    | none => none
    | some status =>
      if status ≠ 0x00 then some (false, s)
      else
        let anti_coll2_data := anti_coll2_result.drop 1
        let select2_data := [0x95, 0x70] ++ anti_coll2_data
        match sendData writeValue select2_data true s with
        | none => none
        | some (select2_result, s) =>
          some (decide (select2_result.length > 1 ∧ select2_result[0]? = some 0x00), s)

/-- Function `PN532_BLE::selectTag()`. -/
def selectTag (writeValue : List Nat → Bool) (s : Session) : Option (Bool × Session) :=
  match hf14aScan writeValue s with
  | none => none
  | some (tag_info, s) =>
    match halt writeValue s with
    | none => none
    | some (_, s) =>
      if tag_info.uid.isEmpty then some (false, s)
      else
        let uid_length := tag_info.uid.length
        match send7bit writeValue [0x52] s with
        | none => none
        | some (_wupa_result, s) =>
          match sendData writeValue [0x93, 0x20] false s with
          | none => none
          | some (anti_coll_result, s) =>
            match anti_coll_result[0]? with
            | none => none
            | some status =>
              if status ≠ 0x00 then some (false, s)
              else
                let anti_coll_data := anti_coll_result.drop 1
                let select_data := [0x93, 0x70] ++ anti_coll_data
                match sendData writeValue select_data true s with
                | none => none
                | some (select_result, s) =>
                  if uid_length = 4 then
                    some (decide (select_result.length > 1 ∧ select_result[0]? = some 0x00), s)
                  else if uid_length = 7 then selectTagCL2 writeValue s
                  else some (false, s)

/-! ## ISO15693 and LF parsing (cpp 653-677, 696-710, 749-769) -/

/-- Record `Iso15TagInfo` (h 136-143).  A default-initialised record has
empty `uid` and `uid_hex`; its four `uint8_t` fields hold no defined value
until they are assigned (`none`). -/
structure Iso15TagInfo where
  uid : List Nat
  uid_hex : String
  dsfid : Option Nat
  afi : Option Nat
  icRef : Option Nat
  blockSize : Option Nat
  deriving DecidableEq, Repr

/-- The default-initialised local `Iso15TagInfo tagInfo;`. -/
def Iso15TagInfo.uninit : Iso15TagInfo :=
  { uid := [], uid_hex := "", dsfid := none, afi := none, icRef := none, blockSize := none }

/-- The `while` loop of `parseHf15Scan` (cpp 663-674).  Each iteration adds
10 to `offset`, so at most `dataSize` iterations run; the first argument
bounds the iterations. -/
def parseHf15ScanLoop (data : List Nat) (dataSize : Nat) :
    Nat → Nat → Iso15TagInfo → Option Iso15TagInfo
  | 0, offset, tagInfo => if offset < dataSize then none else some tagInfo
  | fuel + 1, offset, tagInfo =>
    if offset < dataSize then
      match data[offset]?, data[offset + 1]? with
      | some _tagType, some _tagNum =>
        if data.length < offset + 2 + 8 then none
        else
          let uid := ((data.drop (offset + 2)).take 8).reverse
          match bytes2HexString uid 8 with
          | none => none
          | some uid_hex =>
            parseHf15ScanLoop data dataSize fuel (offset + 2 + 8)
              { tagInfo with uid := uid, uid_hex := uid_hex }
      | _, _ => none
    else some tagInfo

/-- Function `PN532_BLE::parseHf15Scan(data, dataSize)`. -/
def parseHf15Scan (data : List Nat) (dataSize : Nat) : Option Iso15TagInfo :=
  if dataSize < 10 then some Iso15TagInfo.uninit
  else parseHf15ScanLoop data dataSize dataSize 0 Iso15TagInfo.uninit

/-- Function `PN532_BLE::parseHf15TagInfo(data, dataSize)`; `blockSize` is a
`uint8_t`. -/
def parseHf15TagInfo (data : List Nat) (dataSize : Nat) : Option Iso15TagInfo :=
  if dataSize > 15 then
    match data[11]?, data[12]?, data[13]?, data[15]? with
    | some d11, some d12, some d13, some d15 =>
      if data.length < 11 then none
      else
        let uid := ((data.drop 3).take 8).reverse
        match bytes2HexString uid uid.length with
        | none => none
        | some uid_hex =>
          some { uid := uid, uid_hex := uid_hex, dsfid := some d11, afi := some d12,
                 icRef := some d15, blockSize := some ((d13 + 1) % 256) }
    | _, _, _, _ => none
  else some Iso15TagInfo.uninit

/-- Record `LfTagInfo` (h 156-160); `id_dec` is an `int` that holds no defined
value until it is assigned. -/
structure LfTagInfo where
  uid : List Nat
  uid_hex : String
  id_dec : Option Int
  deriving DecidableEq, Repr

/-- The default-initialised local `LfTagInfo tagInfo;`. -/
def LfTagInfo.uninit : LfTagInfo :=
  { uid := [], uid_hex := "", id_dec := none }

/-- A 32-bit pattern read as `int` (two's complement). -/
def toInt32 (x : Nat) : Int :=
  if x % 4294967296 < 2147483648 then ((x % 4294967296 : Nat) : Int)
  else ((x % 4294967296 : Nat) : Int) - 4294967296

/-- The `while` loop of `parseLfScan` (cpp 754-766); the first argument
bounds the iterations, each of which adds 7 to `offset`. -/
def parseLfScanLoop (data : List Nat) (dataSize : Nat) :
    Nat → Nat → LfTagInfo → Option LfTagInfo
  | 0, offset, tagInfo => if offset < dataSize then none else some tagInfo
  | fuel + 1, offset, tagInfo =>
    if offset < dataSize then
      match data[offset]?, data[offset + 1]? with
      | some _tagType, some _tagNum =>
        match (data.drop (offset + 2)).take 5 with
        | [u0, u1, u2, u3, u4] =>
          let uid := [u0, u1, u2, u3, u4]
          let id_dec := toInt32 ((u0 <<< 24) ||| (u1 <<< 16) ||| (u2 <<< 8) ||| u3)
          match bytes2HexString uid 5 with
          | none => none
          | some uid_hex =>
            parseLfScanLoop data dataSize fuel (offset + 2 + 5)
              { uid := uid, id_dec := some id_dec, uid_hex := uid_hex }
        | _ => none
      | _, _ => none
    else some tagInfo

/-- Function `PN532_BLE::parseLfScan(data, dataSize)`. -/
def parseLfScan (data : List Nat) (dataSize : Nat) : Option LfTagInfo :=
  parseLfScanLoop data dataSize dataSize 0 LfTagInfo.uninit

/-! ## Mifare Classic authentication (cpp 445-459) -/

/-- Function `PN532_BLE::mfAuth(uid, block, key, useKeyA)`.  `key` points to
at least six bytes, and `uid.end() - 4` needs a UID of at least four bytes;
the first payload byte is read only when `dataSize >= 1`. -/
def mfAuth (writeValue : List Nat → Bool) (uid : List Nat) (block : Nat) (key : List Nat)
    (useKeyA : Bool) (s : Session) : Option (Bool × Session) :=
  if key.length < 6 ∨ uid.length < 4 then none
  else
    let authData := [0x01]
    let authData := authData ++ [if useKeyA then 0x60 else 0x61]
    let authData := authData ++ [block]
    let authData := authData ++ key.take 6
    let authData := authData ++ uid.drop (uid.length - 4)
    match writeCommand writeValue InDataExchange authData s with
    | none => none
    | some (res, s) =>
      if !res then some (false, s)
      else if s.cmdResponse.dataSize ≥ 1 then
        match s.cmdResponse.data[0]? with
        | none => none
        | some first => some (first == 0x00, s)
      else some (false, s)

/-! ## CRC-16/CCITT (cpp 817-838) -/

/-- The inner loop of `appendCrc16Ccitt` (lines 823-833): `j` iterations are
left, `crc` is the 16-bit register. -/
def crc16CcittBits : Nat → Nat → Nat
  | 0, crc => crc
  | j + 1, crc =>
    if crc &&& 1 ≠ 0 then crc16CcittBits j (((crc >>> 1) ^^^ 0x8408) % 65536)
    else crc16CcittBits j (crc >>> 1)

/-- One iteration of the outer loop of `appendCrc16Ccitt`: `crc ^= data[i]`,
then the eight shifts. -/
def crc16CcittStep (crc : Nat) (b : Nat) : Nat :=
  crc16CcittBits 8 ((crc ^^^ b) % 65536)

/-- Function `PN532_BLE::appendCrc16Ccitt(data)`: the vector after the two
`push_back` calls. -/
def appendCrc16Ccitt (data : List Nat) : List Nat :=
  let crc := data.foldl crc16CcittStep 0xFFFF
  let crc := (crc ^^^ 0xFFFF) % 65536
  data ++ [(crc &&& 0xFF) % 256, ((crc >>> 8) &&& 0xFF) % 256]

/-! ## Hex string to bytes (cpp 852-869) -/

/-- Modelled from the spec: the value of a hexadecimal digit as the C library
reads it, in either case; `none` for any other character. -/
def hexDigitValue (c : Char) : Option Nat :=
  if 48 ≤ c.toNat ∧ c.toNat ≤ 57 then some (c.toNat - 48)
  else if 97 ≤ c.toNat ∧ c.toNat ≤ 102 then some (c.toNat - 87)
  else if 65 ≤ c.toNat ∧ c.toNat ≤ 70 then some (c.toNat - 55)
  else none

/-- Modelled from the spec: the digits `strtoul` consumes, the longest run of
hexadecimal digits at the front of the string, accumulated in base 16. -/
def stoulDigits : List Char → Nat → Nat
  | [], value => value
  | c :: rest, value =>
    match hexDigitValue c with
    | none => value
    | some d => stoulDigits rest (16 * value + d)

/-- Modelled from the spec: `std::stoul(str, nullptr, 16)` belongs to the C++
standard library, not to this repository.  It skips leading white space,
takes an optional sign and an optional `0x` ahead of the digits, converts
the longest run of hexadecimal digits and negates the value in `unsigned
long` (32 bits on the ESP32) after a minus sign.  Without any digit it
throws `std::invalid_argument`, with a value beyond `unsigned long` it throws
`std::out_of_range`; both are `none` here. -/
def stoul (str : List Char) : Option Nat :=
  let str := str.dropWhile (fun c => c.toNat = 32 ∨ (9 ≤ c.toNat ∧ c.toNat ≤ 13))
  let negative := decide (str.head? = some (Char.ofNat 45))
  let str := if str.head? = some (Char.ofNat 45) ∨ str.head? = some (Char.ofNat 43)
    then str.drop 1 else str
  let str :=
    match str with
    | z :: x :: d :: rest =>
      if z.toNat = 48 ∧ (x.toNat = 120 ∨ x.toNat = 88) ∧ (hexDigitValue d).isSome then d :: rest
      else str
    | _ => str
  match str with
  | [] => none
  | c :: _ =>
    if (hexDigitValue c).isNone then none
    else
      let value := stoulDigits str 0
      if value ≥ 2 ^ 32 then none
      else some (if negative then (2 ^ 32 - value) % 2 ^ 32 else value)

/-- The loop of `hexStringToUint8Array` (lines 861-866) over the characters
from index `i` on: `substr(i, 2)` is the next two characters (the last one
alone when only one is left), and the value of `std::stoul` is converted to
`uint8_t`. -/
def hexStringPairs : List Char → Option (List Nat)
  | [] => some []
  | [c] =>
    match stoul [c] with
    | none => none
    | some value => some [value % 256]
  | c1 :: c2 :: rest =>
    match stoul [c1, c2] with
    | none => none
    | some value =>
      match hexStringPairs rest with
      | none => none
      | some result => some (value % 256 :: result)

/-- Function `PN532_BLE::hexStringToUint8Array(hexString)`; the characters of
the `std::string` are the characters of the string.  A string of odd length
is padded with a leading `"0"` and the function calls itself. -/
def hexStringToUint8Array (hexString : String) : Option (List Nat) :=
  if hexString.length % 2 ≠ 0 then
    let paddedHexString := "0" ++ hexString
    hexStringToUint8Array paddedHexString
  else hexStringPairs hexString.data
termination_by hexString.length % 2
decreasing_by
  simp only [String.length_append, show ("0" : String).length = 1 from rfl]
  omega

/-! ## Device replies and exchanges, as the statements below describe them -/

/-- The frame `buildFrame` produces, written out. -/
def frameOf (cmd : Nat) (data : List Nat) : List Nat :=
  [0x00, 0x00, 0xFF, (2 + data.length) % 256, (256 - (2 + data.length) % 256) % 256, 0xD4,
    cmd % 256] ++ data ++ [(256 - (0xD4 + cmd % 256 + data.sum) % 256) % 256, 0x00]

/-- A reply of the device to one command: the six bytes `lead` ahead of the
frame (the place of the ACK frame), the payload, and `idle`, the number of
`delay` calls of the waiting host that pass before the reply arrives. -/
structure Reply where
  idle : Nat
  lead : List Nat
  payload : List Nat
  deriving DecidableEq, Repr

/-- A reply that arrives before the 4 s deadline, with six leading bytes and a
payload that fits `data[200]`. -/
def Reply.wellFormed (r : Reply) : Prop :=
  r.idle ≤ 401 ∧ r.lead.length = 6 ∧ r.payload.length ≤ 200

instance (r : Reply) : Decidable r.wellFormed := by
  unfold Reply.wellFormed; infer_instance

/-- The bytes of the reply to command `cmd` on the wire: `lead`, then the
frame with type byte 0xD5 and command byte `cmd + 1`. -/
def Reply.bytes (cmd : Nat) (r : Reply) : List Nat :=
  r.lead ++ ([0x00, 0x00, 0xFF, r.payload.length + 2, (256 - (r.payload.length + 2)) % 256,
    0xD5, cmd + 1] ++ r.payload ++ [(256 - (0xD5 + (cmd + 1) + r.payload.sum) % 256) % 256, 0x00])

/-- The schedule of notifications of a reply: `idle` calls of `delay` without
traffic, then one call during which the reply arrives as one chunk. -/
def Reply.script (cmd : Nat) (r : Reply) : List (List (List Nat)) :=
  List.replicate r.idle [] ++ [[r.bytes cmd]]

/-- The response record `NotifyCallBack` makes of the reply. -/
def Reply.response (cmd : Nat) (r : Reply) : CmdResponse :=
  { raw := r.bytes cmd, length := r.payload.length + 15, command := cmd, status := none,
    dataSize := r.payload.length, data := r.payload }

/-- The session after `writeCommand(cmd, data)` was answered by the reply `r`;
`rest` is what is scheduled to arrive later. -/
def afterReply (s : Session) (cmd : Nat) (data : List Nat) (r : Reply)
    (rest : List (List (List Nat))) : Session :=
  { pn532bleBuffer := [], pn532Responses := [], cmdResponse := r.response cmd,
    millis := s.millis + 10 * (r.idle + 1),
    transmitted := s.transmitted ++ [frameOf cmd data], incoming := rest }

/-- The session after `writeCommand(cmd, data)` timed out with nothing
arriving. -/
def afterTimeout (s : Session) (cmd : Nat) (data : List Nat) : Session :=
  { s with pn532bleBuffer := [], millis := s.millis + 4020,
           transmitted := s.transmitted ++ [frameOf cmd data] }

/-! ## Uppercase hexadecimal rendering, as the statements below describe it -/

/-- The character of one hexadecimal digit, uppercase: `0`..`9`, `A`..`F`. -/
def upperHexDigit (d : Nat) : Char :=
  if d < 10 then Char.ofNat (48 + d) else Char.ofNat (55 + d)

/-- The characters of the uppercase hexadecimal rendering of a byte sequence:
two digits for every byte, the high digit first. -/
def hexRendering : List Nat → List Char
  | [] => []
  | b :: rest => upperHexDigit (b / 16) :: upperHexDigit (b % 16) :: hexRendering rest

/-! ## Bit-serial reflected CRC, as the statements below describe it -/

/-- One shift of the bit-serial reflected CRC with polynomial 0x8408: the
register moves one bit to the right, and the polynomial is added when the
bit shifted out is 1. -/
def crcBit (crc : Nat) : Nat :=
  if crc % 2 = 1 then (crc / 2) ^^^ 0x8408 else crc / 2

/-- The bit-serial reflected CRC with polynomial 0x8408, initial register
0x6363 and no final XOR: every byte is added to the low end of the register,
followed by eight shifts. -/
def bitSerialCrcA (D : List Nat) : Nat :=
  D.foldl (fun crc b => crcBit^[8] (crc ^^^ b)) 0x6363

/-! ## Example traffic used by the concrete statements below -/

/-- The six ACK bytes followed by the reply to `GetFirmwareVersion` (0x02). -/
def firmwareReply : List Nat :=
  [0x00, 0x00, 0xFF, 0x00, 0xFF, 0x00, 0x00, 0x00, 0xFF, 0x06, 0xFA, 0xD5, 0x03, 0x32, 0x01,
    0x06, 0x07, 0xE8, 0x00]

/-- The six ACK bytes followed by a reply to `InListPassiveTarget` (0x4A) with
the one payload byte 0x00. -/
def scanReply : List Nat :=
  [0x00, 0x00, 0xFF, 0x00, 0xFF, 0x00, 0x00, 0x00, 0xFF, 0x03, 0xFD, 0xD5, 0x4B, 0x00, 0xE0, 0x00]

/-- The response record `NotifyCallBack` makes of `firmwareReply`. -/
def firmwareResponse : CmdResponse :=
  { raw := firmwareReply, length := 19, command := 0x02, status := none, dataSize := 4,
    data := [0x32, 0x01, 0x06, 0x07] }

/-- The response record `NotifyCallBack` makes of `scanReply`. -/
def scanResponse : CmdResponse :=
  { raw := scanReply, length := 16, command := 0x4A, status := none, dataSize := 1,
    data := [0x00] }

/-- A response record with payload `00 0A` for `InCommunicateThru`, as a Gen1A
tag leaves it in `cmdResponse` after a successful `isGen1A`. -/
def unlockResponse : CmdResponse :=
  { raw := [0x00, 0x00, 0xFF, 0x00, 0xFF, 0x00, 0x00, 0x00, 0xFF, 0x04, 0xFC, 0xD5, 0x43, 0x00,
      0x0A, 0xDE, 0x00],
    length := 17, command := 0x42, status := none, dataSize := 2, data := [0x00, 0x0A] }

/-- The six bytes of the PN532 ACK frame. -/
def ackBytes : List Nat := [0x00, 0x00, 0xFF, 0x00, 0xFF, 0x00]

/-- A reply with the given payload that arrives, after the ACK bytes, during
the first `delay` of the waiting host. -/
def quickReply (payload : List Nat) : Reply :=
  { idle := 0, lead := ackBytes, payload := payload }

/-- The notifications of a run of `isGen1A` in which every exchange is
answered at once, with the given replies to unlock1 and unlock2. -/
def gen1aTraffic (unlock1 unlock2 : List Nat) : List (List (List Nat)) :=
  (quickReply []).script WriteRegister ++ ((quickReply [0x00]).script InCommunicateThru ++
    ((quickReply []).script WriteRegister ++ ((quickReply unlock1).script InCommunicateThru ++
    ((quickReply []).script WriteRegister ++
    ([] :: ((quickReply unlock2).script InCommunicateThru ++ ([] :: [])))))))

/-- The notifications of a run of `selectTag` on a tag with the 7-byte UID
`04 11 22 33 44 55 66` in which every exchange is answered at once; the
reply to the CL1 select command is the one given. -/
def cascadeTraffic (select1 : List Nat) : List (List (List Nat)) :=
  (quickReply [0x01, 0x01, 0x00, 0x44, 0x00, 0x07, 0x04, 0x11, 0x22, 0x33, 0x44, 0x55,
      0x66]).script InListPassiveTarget ++
    ((quickReply []).script WriteRegister ++ ((quickReply [0x00]).script InCommunicateThru ++
    ((quickReply []).script WriteRegister ++
    ((quickReply [0x00, 0x44, 0x00]).script InCommunicateThru ++
    ((quickReply []).script WriteRegister ++
    ((quickReply [0x00, 0x88, 0x04, 0x11, 0x22, 0xBF]).script InCommunicateThru ++
    ((quickReply select1).script InCommunicateThru ++
    ((quickReply [0x00, 0x33, 0x44, 0x55, 0x66, 0x00]).script InCommunicateThru ++
    ((quickReply [0x00, 0x00]).script InCommunicateThru ++ [])))))))))

/-- The payload of a reply to `InListPassiveTarget` for a MIFARE 1K tag with
UID `11 22 33 44`: number of targets, target number, ATQA `00 04`, SAK `08`,
UID length, UID. -/
def mifare1kScan : List Nat :=
  [0x01, 0x01, 0x00, 0x04, 0x08, 0x04, 0x11, 0x22, 0x33, 0x44]

/-- The twelve bytes of the end-to-end scenario of the specification. -/
def scenarioScan : List Nat :=
  [0x02, 0x00, 0x00, 0x00, 0x04, 0x04, 0x11, 0x22, 0x33, 0x44, 0x08, 0x00]

/-- The notifications of a run of `selectTag` on a MIFARE 1K tag with the
4-byte UID `11 22 33 44` in which every exchange is answered at once; the
reply to the CL1 select command is the one given. -/
def singleSizeTraffic (select1 : List Nat) : List (List (List Nat)) :=
  (quickReply mifare1kScan).script InListPassiveTarget ++
    ((quickReply []).script WriteRegister ++ ((quickReply [0x00]).script InCommunicateThru ++
    ((quickReply []).script WriteRegister ++
    ((quickReply [0x00, 0x04, 0x00]).script InCommunicateThru ++
    ((quickReply []).script WriteRegister ++
    ((quickReply [0x00, 0x11, 0x22, 0x33, 0x44, 0x44]).script InCommunicateThru ++
    ((quickReply select1).script InCommunicateThru ++ [])))))))

/-- A 16-byte reply to the ISO15693 "get system information" request whose
block-size byte (offset 13) is 0xFF. -/
def systemInfoReply : List Nat :=
  [0x00, 0x00, 0x00, 0x01, 0x02, 0x03, 0x04, 0x05, 0x06, 0x07, 0xE0, 0xAA, 0xBB, 0xFF, 0x00,
    0xCC]

/-- The notifications of a run of `selectTag` on a MIFARE 1K tag with the
4-byte UID `11 22 33 44` in which every exchange is answered at once; the
reply to the CL1 anti-collision command `93 20` is the one given, and nothing
arrives after it. -/
def anticollTraffic (anticoll : List Nat) : List (List (List Nat)) :=
  (quickReply mifare1kScan).script InListPassiveTarget ++
    ((quickReply []).script WriteRegister ++ ((quickReply [0x00]).script InCommunicateThru ++
    ((quickReply []).script WriteRegister ++
    ((quickReply [0x00, 0x04, 0x00]).script InCommunicateThru ++
    ((quickReply []).script WriteRegister ++
    ((quickReply anticoll).script InCommunicateThru ++ []))))))

/-- The notifications of a run of `selectTag` on a tag with the 7-byte UID
`04 11 22 33 44 55 66` in which every exchange is answered at once; the
reply to the CL2 anti-collision command `95 20` is the one given, and
nothing arrives after it. -/
def anticoll2Traffic (anticoll2 : List Nat) : List (List (List Nat)) :=
  (quickReply [0x01, 0x01, 0x00, 0x44, 0x00, 0x07, 0x04, 0x11, 0x22, 0x33, 0x44, 0x55,
      0x66]).script InListPassiveTarget ++
    ((quickReply []).script WriteRegister ++ ((quickReply [0x00]).script InCommunicateThru ++
    ((quickReply []).script WriteRegister ++
    ((quickReply [0x00, 0x44, 0x00]).script InCommunicateThru ++
    ((quickReply []).script WriteRegister ++
    ((quickReply [0x00, 0x88, 0x04, 0x11, 0x22, 0xBF]).script InCommunicateThru ++
    ((quickReply [0x00, 0x04]).script InCommunicateThru ++
    ((quickReply anticoll2).script InCommunicateThru ++ []))))))))

/-- A reply to `InDataExchange` with a payload of 201 zero bytes, after the
six ACK bytes: 216 bytes, length byte 0xCB. -/
def longReply : List Nat :=
  Reply.bytes InDataExchange { idle := 0, lead := ackBytes, payload := List.replicate 201 0 }

/-- A reply to `InDataExchange` with a payload of 253 zero bytes, after the
six ACK bytes: 268 bytes, length byte 0xFF. -/
def longestReply : List Nat :=
  Reply.bytes InDataExchange { idle := 0, lead := ackBytes, payload := List.replicate 253 0 }

/-! ## Lemmas on the checksum loop -/

theorem and_0xFF (x : Nat) : x &&& 0xFF = x % 256 :=
  Nat.and_pow_two_sub_one_eq_mod x 8

theorem dcsLoop_inbounds (data : List Nat) : ∀ (n i c : Nat), i + n ≤ data.length → c < 256 →
    dcsLoop data n i c = some ((c + ((data.drop i).take n).sum) % 256) := by
  intro n
  induction n with
  | zero => intro i c _ hc; simp [dcsLoop, Nat.mod_eq_of_lt hc]
  | succ n ih =>
    intro i c h hc
    have hi : i < data.length := by omega
    rw [dcsLoop, List.getElem?_eq_getElem hi]
    simp only
    rw [ih (i + 1) _ (by omega) (Nat.mod_lt _ (by norm_num))]
    rw [List.drop_eq_getElem_cons hi]
    simp only [List.take_succ_cons, List.sum_cons]
    congr 1
    omega

theorem dcs_inbounds (data : List Nat) (n : Nat) (h : n ≤ data.length) :
    dcs data n = some ((256 - (data.take n).sum % 256) % 256) := by
  unfold dcs
  rw [dcsLoop_inbounds data n 0 0 (by omega) (by norm_num)]
  simp

theorem dcs_append (B R : List Nat) :
    dcs (B ++ R) B.length = some ((256 - B.sum % 256) % 256) := by
  rw [dcs_inbounds _ _ (by simp)]
  simp

theorem dcs_whole (B : List Nat) :
    dcs B B.length = some ((256 - B.sum % 256) % 256) := by
  simpa using dcs_append B []

/-- The frame of `buildFrame`, spelled out. -/
theorem buildFrame_eq (cmd : Nat) (data : List Nat) :
    buildFrame cmd data = some ([0x00, 0x00, 0xFF, (2 + data.length) % 256,
      (256 - (2 + data.length) % 256) % 256, 0xD4, cmd % 256] ++ data ++
      [(256 - (0xD4 + cmd % 256 + data.sum) % 256) % 256, 0x00]) := by
  unfold buildFrame
  simp only [dcs_whole]
  simp only [DATA_PREAMBLE, DATA_START_CODE, DATA_TIF_SEND, DATA_POSTAMBLE, List.cons_append,
    List.nil_append, List.append_assoc, List.length_cons, List.sum_cons, Option.some.injEq,
    List.cons.injEq, true_and]
  refine ⟨by omega, by omega, ?_⟩
  congr 2
  omega

/-! ## Outbound frame: C1, C2 -/

/-- C1: for a command code `c` (one byte) and a payload `P` of at most 253
bytes, the frame `writeCommand` builds and hands to the transport is
`[0x00, 0x00, 0xFF, L, (0 - L) mod 256, 0xD4, c] ++ P ++ [dcs([0xD4, c] ++ P), 0x00]`
with `L = 2 + len(P)`, and it has `len(P) + 9` bytes. -/
theorem writeCommand_frame_layout (writeValue : List Nat → Bool) (s : Session)
    (c : Nat) (P : List Nat) (hc : c < 256) (hP : P.length ≤ 253) :
    ∃ d frame, dcs ([0xD4, c] ++ P) ([0xD4, c] ++ P).length = some d ∧
      frame = [0x00, 0x00, 0xFF, 2 + P.length, ((0 - ((2 + P.length : Nat) : Int)) % 256).toNat,
        0xD4, c] ++ P ++ [d, 0x00] ∧
      buildFrame c P = some frame ∧
      transmitCommand writeValue c P s =
        some (writeValue frame,
          { s with pn532bleBuffer := [], transmitted := s.transmitted ++ [frame] }) ∧
      frame.length = P.length + 9 := by
  have hb := buildFrame_eq c P
  have hL : (2 + P.length) % 256 = 2 + P.length := Nat.mod_eq_of_lt (by omega)
  have hlcs : ((0 - ((2 + P.length : Nat) : Int)) % 256).toNat = (256 - (2 + P.length)) % 256 := by
    omega
  rw [hL, Nat.mod_eq_of_lt hc] at hb
  refine ⟨_, _, dcs_whole _, rfl, ?_, ?_, ?_⟩
  · rw [hb, hlcs]; simp [Nat.add_assoc]
  · unfold transmitCommand
    rw [hb, hlcs]; simp [Nat.add_assoc]
  · simp

/-- Witness of C1: `InListPassiveTarget` (0x4A) with payload `01 00`. -/
theorem writeCommand_frame_layout_witness :
    ∃ d frame, dcs ([0xD4, 0x4A] ++ [0x01, 0x00]) ([0xD4, 0x4A] ++ [0x01, 0x00]).length = some d ∧
      frame = [0x00, 0x00, 0xFF, 2 + [0x01, 0x00].length,
        ((0 - ((2 + [0x01, 0x00].length : Nat) : Int)) % 256).toNat, 0xD4, 0x4A] ++
        [0x01, 0x00] ++ [d, 0x00] ∧
      buildFrame 0x4A [0x01, 0x00] = some frame ∧
      transmitCommand (fun _ => true) 0x4A [0x01, 0x00] ⟨[], [], ⟨[], 0, 0, none, 0, []⟩, 0, [], []⟩ =
        some ((fun _ => true) frame,
          { (⟨[], [], ⟨[], 0, 0, none, 0, []⟩, 0, [], []⟩ : Session) with
            pn532bleBuffer := [], transmitted := [] ++ [frame] }) ∧
      frame.length = [0x01, 0x00].length + 9 :=
  writeCommand_frame_layout (fun _ => true) ⟨[], [], ⟨[], 0, 0, none, 0, []⟩, 0, [], []⟩
    0x4A [0x01, 0x00] (by decide) (by decide)

/-- C2: `dcs` is the two's complement of the byte sum,
`(sum(B) + dcs(B)) mod 256 = 0`; hence, for every command and every payload of
any length, the frame built by `writeCommand` satisfies
`(TFI + command + sum(payload) + dataChecksum) & 0xFF = 0`, where TFI,
command, payload and dataChecksum are the bytes at offsets 5, 6, 7.. and
`7 + len(payload)` of the frame. -/
theorem dcs_twos_complement (B : List Nat) (c : Nat) (P : List Nat) :
    (∃ d, dcs B B.length = some d ∧ (B.sum + d) % 256 = 0) ∧
    (∃ frame tfi command dataChecksum, buildFrame c P = some frame ∧
      frame[5]? = some tfi ∧ frame[6]? = some command ∧
      (frame.drop 7).take P.length = P ∧
      frame[7 + P.length]? = some dataChecksum ∧
      (tfi + command + P.sum + dataChecksum) &&& 0xFF = 0) := by
  refine ⟨⟨_, dcs_whole B, by omega⟩, ?_⟩
  refine ⟨_, 0xD4, c % 256, (256 - (0xD4 + c % 256 + P.sum) % 256) % 256,
    buildFrame_eq c P, by simp, by simp, by simp, ?_, ?_⟩
  · rw [List.getElem?_append_right (by simp; omega)]
    have h0 : 7 + P.length - ([0x00, 0x00, 0xFF, (2 + P.length) % 256,
        (256 - (2 + P.length) % 256) % 256, 0xD4, c % 256] ++ P).length = 0 := by
      simp; omega
    rw [h0]; rfl
  · rw [and_0xFF]; omega

/-! ## Inbound frames: acceptance of a well-formed frame -/

theorem length_six {A : List Nat} (hA : A.length = 6) :
    ∃ a0 a1 a2 a3 a4 a5, A = [a0, a1, a2, a3, a4, a5] := by
  match A, hA with
  | [a0, a1, a2, a3, a4, a5], _ => exact ⟨a0, a1, a2, a3, a4, a5, rfl⟩

/-- The decision of `isCompleteFrame` when all its reads are inside the
buffer: the three gates in the order of the source. -/
theorem isCompleteFrame_inbounds (s : Session) (pData : List Nat) (n len lcs dcsValue calculatedDcs : Nat)
    (hn : 10 ≤ n) (h9 : pData[9]? = some len) (h10 : pData[10]? = some lcs)
    (hlast : pData[n - 2]? = some dcsValue) (hd : dcs (pData.drop 11) len = some calculatedDcs) :
    isCompleteFrame s pData n =
      if len + 13 < n then some (false, s)
      else if (len + lcs) % 2 ≠ 0 then some (false, { s with pn532bleBuffer := [] })
      else if calculatedDcs ≠ dcsValue then some (false, s) else some (true, s) := by
  unfold isCompleteFrame
  rw [if_neg (by omega), h9, h10]
  simp only [hlast, hd, Nat.and_one_is_mod, ne_eq, OfNat.ofNat_ne_zero, not_false_eq_true,
    if_true, Nat.reduceEqDiff, ↓reduceIte]

theorem isCompleteFrame_of_lt_ten (s : Session) (pData : List Nat) (length : Nat)
    (h : length < 10) : isCompleteFrame s pData length = some (false, s) := by
  unfold isCompleteFrame
  rw [if_pos h]

theorem NotifyCallBack_of_rejected (s s2 : Session) (chunk : List Nat)
    (hc : isCompleteFrame { s with pn532bleBuffer := s.pn532bleBuffer ++ chunk }
      (s.pn532bleBuffer ++ chunk) (s.pn532bleBuffer ++ chunk).length = some (false, s2)) :
    NotifyCallBack s chunk = some s2 := by
  unfold NotifyCallBack
  simp only [hc]

theorem NotifyCallBack_of_accepted (s : Session) (chunk data : List Nat) (b12 len : Nat)
    (hc : isCompleteFrame { s with pn532bleBuffer := s.pn532bleBuffer ++ chunk }
      (s.pn532bleBuffer ++ chunk) (s.pn532bleBuffer ++ chunk).length =
        some (true, { s with pn532bleBuffer := s.pn532bleBuffer ++ chunk }))
    (h250 : (s.pn532bleBuffer ++ chunk).length ≤ 250)
    (h12 : (s.pn532bleBuffer ++ chunk)[12]? = some b12)
    (h9 : (s.pn532bleBuffer ++ chunk)[9]? = some len)
    (hdata : copyData (s.pn532bleBuffer ++ chunk) ((len + 256 - 2) % 256) = some data) :
    NotifyCallBack s chunk =
      some { s with
        pn532Responses := s.pn532Responses ++
          [{ raw := s.pn532bleBuffer ++ chunk, length := (s.pn532bleBuffer ++ chunk).length,
             command := (b12 + 65536 - 1) % 65536, status := none,
             dataSize := (len + 256 - 2) % 256, data := data }],
        pn532bleBuffer := [] } := by
  unfold NotifyCallBack
  simp only [hc, h12, h9, hdata]
  rw [if_neg (by omega)]

/-- The bytes of a frame with six leading bytes `A`, type byte `t`, command
byte `k` and payload `P`, as one list. -/
theorem frame_bytes (A P : List Nat) (t k : Nat) (hA : A.length = 6) :
    ∃ a0 a1 a2 a3 a4 a5,
      A ++ ([0x00, 0x00, 0xFF, P.length + 2, (256 - (P.length + 2)) % 256, t, k]
        ++ P ++ [(256 - (t + k + P.sum) % 256) % 256, 0x00]) =
      a0 :: a1 :: a2 :: a3 :: a4 :: a5 :: 0x00 :: 0x00 :: 0xFF :: (P.length + 2) ::
        ((256 - (P.length + 2)) % 256) :: t :: k ::
          (P ++ [(256 - (t + k + P.sum) % 256) % 256, 0x00]) := by
  obtain ⟨a0, a1, a2, a3, a4, a5, rfl⟩ := length_six hA
  exact ⟨a0, a1, a2, a3, a4, a5, by simp⟩

/-- Such a frame passes `isCompleteFrame` when its payload has at most 253
bytes. -/
theorem isCompleteFrame_accepts (s : Session) (A P : List Nat) (t k : Nat)
    (hA : A.length = 6) (hP : P.length ≤ 253) :
    isCompleteFrame s
      (A ++ ([0x00, 0x00, 0xFF, P.length + 2, (256 - (P.length + 2)) % 256, t, k]
        ++ P ++ [(256 - (t + k + P.sum) % 256) % 256, 0x00]))
      (A ++ ([0x00, 0x00, 0xFF, P.length + 2, (256 - (P.length + 2)) % 256, t, k]
        ++ P ++ [(256 - (t + k + P.sum) % 256) % 256, 0x00])).length = some (true, s) := by
  obtain ⟨a0, a1, a2, a3, a4, a5, hbuf⟩ := frame_bytes A P t k hA
  have hdcs : dcs ((t :: k :: P) ++ [(256 - (t + k + P.sum) % 256) % 256, 0x00]) (P.length + 2) =
      some ((256 - (t + k + P.sum) % 256) % 256) := by
    have h := dcs_append (t :: k :: P) [(256 - (t + k + P.sum) % 256) % 256, 0x00]
    simp only [List.length_cons, List.sum_cons] at h
    rw [h]; congr 3; omega
  have hlast : (P ++ [(256 - (t + k + P.sum) % 256) % 256, 0x00])[P.length]? =
      some ((256 - (t + k + P.sum) % 256) % 256) := by
    rw [List.getElem?_append_right (le_refl _)]; simp
  have hlen : (A ++ ([0x00, 0x00, 0xFF, P.length + 2, (256 - (P.length + 2)) % 256, t, k]
      ++ P ++ [(256 - (t + k + P.sum) % 256) % 256, 0x00])).length = P.length + 15 := by
    simp [hA]; omega
  rw [hlen, isCompleteFrame_inbounds _ _ (P.length + 15) (P.length + 2)
    ((256 - (P.length + 2)) % 256) ((256 - (t + k + P.sum) % 256) % 256)
    ((256 - (t + k + P.sum) % 256) % 256) (by omega) (by rw [hbuf]; simp) (by rw [hbuf]; simp)
    (by rw [hbuf]; simpa using hlast) (by rw [hbuf]; simpa using hdcs)]
  rw [if_neg (by omega), if_neg (by omega), if_neg (by simp)]

/-- A frame with type byte `t`, command byte `k ≥ 1` and payload `P` of at
most 200 bytes, preceded by six bytes, is accepted by `NotifyCallBack`
starting from an empty receive buffer; the decoder checks neither the six
bytes nor `t`. -/
theorem NotifyCallBack_accepts (s : Session) (A P : List Nat) (t k : Nat)
    (hs : s.pn532bleBuffer = []) (hA : A.length = 6) (hP : P.length ≤ 200)
    (hk1 : 1 ≤ k) (hk2 : k ≤ 255) :
    NotifyCallBack s (A ++ ([0x00, 0x00, 0xFF, P.length + 2, (256 - (P.length + 2)) % 256, t, k]
        ++ P ++ [(256 - (t + k + P.sum) % 256) % 256, 0x00])) =
      some { s with
        pn532Responses := s.pn532Responses ++
          [{ raw := A ++ ([0x00, 0x00, 0xFF, P.length + 2, (256 - (P.length + 2)) % 256, t, k]
               ++ P ++ [(256 - (t + k + P.sum) % 256) % 256, 0x00]),
             length := P.length + 15, command := k - 1, status := none,
             dataSize := P.length, data := P }],
        pn532bleBuffer := [] } := by
  obtain ⟨a0, a1, a2, a3, a4, a5, hbuf⟩ := frame_bytes A P t k hA
  have hcmd : (k + 65536 - 1) % 65536 = k - 1 := by omega
  have hsz : (P.length + 2 + 256 - 2) % 256 = P.length := by omega
  have hlen : (A ++ ([0x00, 0x00, 0xFF, P.length + 2, (256 - (P.length + 2)) % 256, t, k]
      ++ P ++ [(256 - (t + k + P.sum) % 256) % 256, 0x00])).length = P.length + 15 := by
    simp [hA]; omega
  have hacc := NotifyCallBack_of_accepted s (A ++ ([0x00, 0x00, 0xFF,
      P.length + 2, (256 - (P.length + 2)) % 256, t, k] ++ P ++
      [(256 - (t + k + P.sum) % 256) % 256, 0x00])) P k (P.length + 2) ?_ ?_ ?_ ?_ ?_
  · rw [hacc, hcmd, hsz]
    simp only [hs, List.nil_append, hlen]
  · simp only [hs, List.nil_append]
    exact isCompleteFrame_accepts _ A P t k hA (by omega)
  · simp only [hs, List.nil_append]; rw [hlen]; omega
  · simp only [hs, List.nil_append]; rw [hbuf]; simp
  · simp only [hs, List.nil_append]; rw [hbuf]; simp
  · simp only [hs, List.nil_append]; rw [hbuf, hsz]
    unfold copyData
    split
    · rw [if_neg (by omega), if_neg (by simp)]; simp
    · have : P = [] := List.eq_nil_of_length_eq_zero (by omega)
      simp [this]

/-! ## Frame round trip and decoding of a reply: C3, C4 -/

/-- C3, counterexample: the frame `writeCommand` builds for
`InListPassiveTarget` (0x4A) with payload `01 00`, fed to `NotifyCallBack` on
an empty receive buffer, decodes to nothing: the decoder reads its length
field at offset 9 (here the checksum byte 0xE1) and discards the buffer. -/
theorem roundtrip_outbound_frame_not_decoded :
    buildFrame 0x4A [0x01, 0x00] =
      some [0x00, 0x00, 0xFF, 0x04, 0xFC, 0xD4, 0x4A, 0x01, 0x00, 0xE1, 0x00] ∧
    NotifyCallBack freshSession [0x00, 0x00, 0xFF, 0x04, 0xFC, 0xD4, 0x4A, 0x01, 0x00, 0xE1, 0x00] =
      some freshSession ∧
    freshSession.pn532Responses = [] := by
  refine ⟨by decide, by decide, rfl⟩

/-- C3, amended: the decoder inverts the encoder up to the reply convention.
For every command `c ≤ 254`, payload `P` of at most 200 bytes and six
leading bytes `A` (the place of the ACK frame), feeding `A` followed by the
frame `writeCommand` builds for command `c + 1` and payload `P` to
`NotifyCallBack` on an empty receive buffer appends one response whose
command is `c` and whose payload is `P`, and empties the buffer. -/
theorem roundtrip_reply_frame (s : Session) (A P : List Nat) (c : Nat)
    (hs : s.pn532bleBuffer = []) (hA : A.length = 6) (hc : c ≤ 254) (hP : P.length ≤ 200) :
    ∃ frame rsp, buildFrame (c + 1) P = some frame ∧
      NotifyCallBack s (A ++ frame) =
        some { s with pn532Responses := s.pn532Responses ++ [rsp], pn532bleBuffer := [] } ∧
      rsp.command = c ∧ rsp.dataSize = P.length ∧ rsp.data = P := by
  have hb := buildFrame_eq (c + 1) P
  rw [Nat.mod_eq_of_lt (show 2 + P.length < 256 by omega),
    Nat.mod_eq_of_lt (show c + 1 < 256 by omega), Nat.add_comm 2 P.length] at hb
  have h := NotifyCallBack_accepts s A P 0xD4 (c + 1) hs hA hP (by omega) (by omega)
  exact ⟨_, _, hb, h, by simp, rfl, rfl⟩

/-- Witness of the amended C3: the reply layout for `GetFirmwareVersion`
(command 0x02) with payload `32 01 06 07` after the six ACK bytes. -/
theorem roundtrip_reply_frame_witness :
    ∃ frame rsp, buildFrame (0x02 + 1) [0x32, 0x01, 0x06, 0x07] = some frame ∧
      NotifyCallBack freshSession ([0x00, 0x00, 0xFF, 0x00, 0xFF, 0x00] ++ frame) =
        some { freshSession with
          pn532Responses := freshSession.pn532Responses ++ [rsp], pn532bleBuffer := [] } ∧
      rsp.command = 0x02 ∧ rsp.dataSize = [0x32, 0x01, 0x06, 0x07].length ∧
      rsp.data = [0x32, 0x01, 0x06, 0x07] :=
  roundtrip_reply_frame freshSession [0x00, 0x00, 0xFF, 0x00, 0xFF, 0x00]
    [0x32, 0x01, 0x06, 0x07] 0x02 rfl rfl (by decide) (by decide)

/-- C4: for every command `c ≤ 254`, payload `P` of at most 200 bytes and
6-byte prefix `A`, the single chunk
`A ++ [0x00, 0x00, 0xFF, L, (0 - L) mod 256, 0xD5, c + 1] ++ P ++ [dcs([0xD5, c + 1] ++ P), 0x00]`
with `L = len(P) + 2`, delivered to `NotifyCallBack` on an empty receive
buffer, is accepted by `isCompleteFrame`, appends exactly one response with
command = byte 12 - 1 = `c`, dataSize = byte 9 - 2 = `len(P)` and data = the
bytes from offset 13 = `P`, and leaves the receive buffer empty. -/
theorem NotifyCallBack_decodes_reply (s : Session) (A P : List Nat) (c d : Nat)
    (hs : s.pn532bleBuffer = []) (hA : A.length = 6) (hc : c ≤ 254) (hP : P.length ≤ 200)
    (hd : dcs ([0xD5, c + 1] ++ P) ([0xD5, c + 1] ++ P).length = some d) :
    ∃ chunk rsp,
      chunk = A ++ ([0x00, 0x00, 0xFF, P.length + 2,
        ((0 - ((P.length + 2 : Nat) : Int)) % 256).toNat, 0xD5, c + 1] ++ P ++ [d, 0x00]) ∧
      isCompleteFrame { s with pn532bleBuffer := chunk } chunk chunk.length =
        some (true, { s with pn532bleBuffer := chunk }) ∧
      NotifyCallBack s chunk =
        some { s with pn532Responses := s.pn532Responses ++ [rsp], pn532bleBuffer := [] } ∧
      chunk[12]? = some (rsp.command + 1) ∧ rsp.command = c ∧
      chunk[9]? = some (rsp.dataSize + 2) ∧ rsp.dataSize = P.length ∧
      rsp.data = (chunk.drop 13).take rsp.dataSize ∧ rsp.data = P := by
  have hlcs : ((0 - ((P.length + 2 : Nat) : Int)) % 256).toNat = (256 - (P.length + 2)) % 256 := by
    omega
  rw [dcs_whole] at hd
  simp only [List.cons_append, List.nil_append, List.sum_cons, Option.some.injEq] at hd
  have hd2 : d = (256 - (0xD5 + (c + 1) + P.sum) % 256) % 256 := by omega
  subst hd2
  rw [hlcs]
  obtain ⟨a0, a1, a2, a3, a4, a5, hbuf⟩ := frame_bytes A P 0xD5 (c + 1) hA
  refine ⟨_, _, rfl, isCompleteFrame_accepts _ A P 0xD5 (c + 1) hA (by omega),
    NotifyCallBack_accepts s A P 0xD5 (c + 1) hs hA hP (by omega) (by omega), ?_, ?_, ?_, rfl,
    ?_, rfl⟩
  · rw [hbuf]; simp
  · simp
  · rw [hbuf]; simp
  · rw [hbuf]; simp

/-- Witness of C4: the reply to `GetFirmwareVersion` (command 0x02), payload
`32 01 06 07`, after the ACK bytes `00 00 FF 00 FF 00`. -/
theorem NotifyCallBack_decodes_reply_witness :
    ∃ chunk rsp,
      chunk = [0x00, 0x00, 0xFF, 0x00, 0xFF, 0x00] ++ ([0x00, 0x00, 0xFF,
        [0x32, 0x01, 0x06, 0x07].length + 2,
        ((0 - (([0x32, 0x01, 0x06, 0x07].length + 2 : Nat) : Int)) % 256).toNat, 0xD5, 0x02 + 1]
        ++ [0x32, 0x01, 0x06, 0x07] ++ [0xE8, 0x00]) ∧
      isCompleteFrame { freshSession with pn532bleBuffer := chunk } chunk chunk.length =
        some (true, { freshSession with pn532bleBuffer := chunk }) ∧
      NotifyCallBack freshSession chunk =
        some { freshSession with
          pn532Responses := freshSession.pn532Responses ++ [rsp], pn532bleBuffer := [] } ∧
      chunk[12]? = some (rsp.command + 1) ∧ rsp.command = 0x02 ∧
      chunk[9]? = some (rsp.dataSize + 2) ∧ rsp.dataSize = [0x32, 0x01, 0x06, 0x07].length ∧
      rsp.data = (chunk.drop 13).take rsp.dataSize ∧ rsp.data = [0x32, 0x01, 0x06, 0x07] :=
  NotifyCallBack_decodes_reply freshSession [0x00, 0x00, 0xFF, 0x00, 0xFF, 0x00]
    [0x32, 0x01, 0x06, 0x07] 0x02 0xE8 rfl rfl (by decide) (by decide) rfl

/-! ## Reassembly and the gates of `isCompleteFrame`: C5, C6, C7, C8 -/

/-- C5, evaluation at the failing input: the 25-byte reply to
`InListPassiveTarget` (ACK bytes, then `00 00 FF 0C F4 D5 4B`, ten payload
bytes, `24 00`) is decoded when it arrives as one chunk, but when it arrives
as a 20-byte chunk followed by the remaining 5 bytes, `isCompleteFrame` runs
on the 20 buffered bytes and `dcs(pData + 11, 12)` reads `pData[20..22]`,
past the end of the buffer: the execution leaves defined behaviour. -/
theorem reassembly_split_reads_past_buffer :
    feedChunks freshSession
      [[0x00, 0x00, 0xFF, 0x00, 0xFF, 0x00, 0x00, 0x00, 0xFF, 0x0C, 0xF4, 0xD5, 0x4B, 0x01, 0x01,
        0x00, 0x04, 0x08, 0x04, 0x11, 0x22, 0x33, 0x44, 0x24, 0x00]] =
      some { freshSession with
        pn532Responses :=
          [{ raw := [0x00, 0x00, 0xFF, 0x00, 0xFF, 0x00, 0x00, 0x00, 0xFF, 0x0C, 0xF4, 0xD5, 0x4B,
               0x01, 0x01, 0x00, 0x04, 0x08, 0x04, 0x11, 0x22, 0x33, 0x44, 0x24, 0x00],
             length := 25, command := 0x4A, status := none, dataSize := 10,
             data := [0x01, 0x01, 0x00, 0x04, 0x08, 0x04, 0x11, 0x22, 0x33, 0x44] }] } ∧
    feedChunks freshSession
      [[0x00, 0x00, 0xFF, 0x00, 0xFF, 0x00, 0x00, 0x00, 0xFF, 0x0C, 0xF4, 0xD5, 0x4B, 0x01, 0x01,
        0x00, 0x04, 0x08, 0x04, 0x11], [0x22, 0x33, 0x44, 0x24, 0x00]] = none ∧
    dcs ([0x00, 0x00, 0xFF, 0x00, 0xFF, 0x00, 0x00, 0x00, 0xFF, 0x0C, 0xF4, 0xD5, 0x4B, 0x01, 0x01,
        0x00, 0x04, 0x08, 0x04, 0x11].drop 11) 0x0C = none := by
  refine ⟨by decide, by decide, by decide⟩

/-- C6, evaluation at the failing input: the first 15 bytes of the 16-byte
reply `00 00 FF 00 FF 00 00 00 FF 03 FD D5 4B 70 70 00` hold the length byte
3 at index 9, so the frame is complete at 3 + 13 = 16 bytes; on the 15 bytes
`isCompleteFrame` returns true, because the byte at `length - 2` (the payload
byte 0x70) happens to equal the data checksum. -/
theorem isCompleteFrame_true_before_complete :
    [0x00, 0x00, 0xFF, 0x00, 0xFF, 0x00, 0x00, 0x00, 0xFF, 0x03, 0xFD, 0xD5, 0x4B, 0x70,
      0x70][9]? = some 3 ∧
    [0x00, 0x00, 0xFF, 0x00, 0xFF, 0x00, 0x00, 0x00, 0xFF, 0x03, 0xFD, 0xD5, 0x4B, 0x70,
      0x70].length < 3 + 13 ∧
    isCompleteFrame freshSession
      [0x00, 0x00, 0xFF, 0x00, 0xFF, 0x00, 0x00, 0x00, 0xFF, 0x03, 0xFD, 0xD5, 0x4B, 0x70, 0x70]
      15 = some (true, freshSession) := by
  refine ⟨by decide, by decide, by decide⟩

/-- C7, evaluation at the failing input: in the 15-byte buffer
`00 00 FF 00 FF 00 00 00 FF 02 00 D5 03 28 00` the length byte is 2 and the
length checksum is 0, so `(2 + 0) mod 256 ≠ 0`; the test of line 61 only
looks at the lowest bit of `len + lcs`, the frame is accepted and a response
for command 0x02 is recorded. -/
theorem length_checksum_gate_passes_bad_lcs :
    (2 + 0) % 256 ≠ 0 ∧
    isCompleteFrame freshSession
      [0x00, 0x00, 0xFF, 0x00, 0xFF, 0x00, 0x00, 0x00, 0xFF, 0x02, 0x00, 0xD5, 0x03, 0x28, 0x00]
      15 = some (true, freshSession) ∧
    NotifyCallBack freshSession
      [0x00, 0x00, 0xFF, 0x00, 0xFF, 0x00, 0x00, 0x00, 0xFF, 0x02, 0x00, 0xD5, 0x03, 0x28, 0x00] =
      some { freshSession with
        pn532Responses :=
          [{ raw := [0x00, 0x00, 0xFF, 0x00, 0xFF, 0x00, 0x00, 0x00, 0xFF, 0x02, 0x00, 0xD5, 0x03,
               0x28, 0x00],
             length := 15, command := 0x02, status := none, dataSize := 0, data := [] }] } := by
  refine ⟨by decide, by decide, by decide⟩

/-- C8: when the buffer `B ++ C` (receive buffer `B`, chunk `C`) passes the
minimum-length gate and the two length gates of `isCompleteFrame` (as the
code evaluates them: not longer than `len + 13`, and `len + lcs` even, which
holds whenever `(len + lcs) mod 256 = 0`), and the byte at `length - 2`
differs from `dcs` over the `len` bytes from offset 11, then `NotifyCallBack`
records no response and leaves the receive buffer equal to `B ++ C`. -/
theorem NotifyCallBack_dcs_mismatch_keeps_buffer (s : Session) (C : List Nat)
    (len lcs dcsValue calculatedDcs : Nat)
    (hmin : 10 ≤ (s.pn532bleBuffer ++ C).length)
    (h9 : (s.pn532bleBuffer ++ C)[9]? = some len)
    (h10 : (s.pn532bleBuffer ++ C)[10]? = some lcs)
    (hlen : ¬ len + 13 < (s.pn532bleBuffer ++ C).length)
    (hlcs : (len + lcs) % 2 = 0)
    (hlast : (s.pn532bleBuffer ++ C)[(s.pn532bleBuffer ++ C).length - 2]? = some dcsValue)
    (hdcs : dcs ((s.pn532bleBuffer ++ C).drop 11) len = some calculatedDcs)
    (hne : calculatedDcs ≠ dcsValue) :
    ∃ s2, NotifyCallBack s C = some s2 ∧ s2.pn532Responses = s.pn532Responses ∧
      s2.pn532bleBuffer = s.pn532bleBuffer ++ C ∧
      s2 = { s with pn532bleBuffer := s.pn532bleBuffer ++ C } := by
  refine ⟨{ s with pn532bleBuffer := s.pn532bleBuffer ++ C },
    NotifyCallBack_of_rejected s _ C ?_, rfl, rfl, rfl⟩
  rw [isCompleteFrame_inbounds _ _ _ len lcs dcsValue calculatedDcs hmin h9 h10 hlast hdcs,
    if_neg hlen, if_neg (by omega), if_pos hne]

/-- Witness of C8: the receive buffer holds the first nine bytes of a reply to
`GetFirmwareVersion`, the chunk brings the rest with a wrong checksum byte
(0xE9 where `dcs` gives 0xE8). -/
theorem NotifyCallBack_dcs_mismatch_keeps_buffer_witness :
    ∃ s2, NotifyCallBack
        { freshSession with
          pn532bleBuffer := [0x00, 0x00, 0xFF, 0x00, 0xFF, 0x00, 0x00, 0x00, 0xFF] }
        [0x06, 0xFA, 0xD5, 0x03, 0x32, 0x01, 0x06, 0x07, 0xE9, 0x00] = some s2 ∧
      s2.pn532Responses = [] ∧
      s2.pn532bleBuffer = [0x00, 0x00, 0xFF, 0x00, 0xFF, 0x00, 0x00, 0x00, 0xFF] ++
        [0x06, 0xFA, 0xD5, 0x03, 0x32, 0x01, 0x06, 0x07, 0xE9, 0x00] ∧
      s2 = { freshSession with
          pn532bleBuffer := [0x00, 0x00, 0xFF, 0x00, 0xFF, 0x00, 0x00, 0x00, 0xFF] ++
            [0x06, 0xFA, 0xD5, 0x03, 0x32, 0x01, 0x06, 0x07, 0xE9, 0x00] } :=
  NotifyCallBack_dcs_mismatch_keeps_buffer
    { freshSession with pn532bleBuffer := [0x00, 0x00, 0xFF, 0x00, 0xFF, 0x00, 0x00, 0x00, 0xFF] }
    [0x06, 0xFA, 0xD5, 0x03, 0x32, 0x01, 0x06, 0x07, 0xE9, 0x00] 0x06 0xFA 0xE9 0xE8
    (by decide) (by decide) (by decide) (by decide) (by decide) (by decide) (by decide)
    (by decide)

/-! ## Correlation of replies: C9, C10 -/

/-- The session returned by `isCompleteFrame` is the given one, possibly with
the receive buffer cleared. -/
theorem isCompleteFrame_session (s s2 : Session) (pData : List Nat) (n : Nat) (b : Bool)
    (h : isCompleteFrame s pData n = some (b, s2)) :
    s2 = s ∨ s2 = { s with pn532bleBuffer := [] } := by
  unfold isCompleteFrame at h
  simp only [ne_eq, OfNat.ofNat_ne_zero, not_false_eq_true, if_true, Nat.and_one_is_mod] at h
  split at h
  · simp only [Option.some.injEq, Prod.mk.injEq] at h; exact Or.inl h.2.symm
  · split at h
    · split at h
      · simp only [Option.some.injEq, Prod.mk.injEq] at h; exact Or.inl h.2.symm
      · split at h
        · simp only [Option.some.injEq, Prod.mk.injEq] at h; exact Or.inr h.2.symm
        · split at h
          · split at h <;>
              (simp only [Option.some.injEq, Prod.mk.injEq] at h; exact Or.inl h.2.symm)
          · exact absurd h (by simp)
    · exact absurd h (by simp)

theorem isCompleteFrame_millis (s s2 : Session) (pData : List Nat) (n : Nat) (b : Bool)
    (h : isCompleteFrame s pData n = some (b, s2)) : s2.millis = s.millis := by
  rcases isCompleteFrame_session s s2 pData n b h with h | h <;> rw [h]

theorem NotifyCallBack_millis (s s2 : Session) (chunk : List Nat)
    (h : NotifyCallBack s chunk = some s2) : s2.millis = s.millis := by
  unfold NotifyCallBack at h
  dsimp only at h
  split at h
  · exact absurd h (by simp)
  · next s3 hc =>
    simp only [Option.some.injEq] at h
    rw [← h, isCompleteFrame_millis _ _ _ _ _ hc]
  · next s3 hc =>
    have hm := isCompleteFrame_millis _ _ _ _ _ hc
    split at h
    · exact absurd h (by simp)
    · split at h
      · split at h
        · exact absurd h (by simp)
        · simp only [Option.some.injEq] at h
          rw [← h]; exact hm
      · exact absurd h (by simp)

theorem feedChunks_millis : ∀ (chunks : List (List Nat)) (s s2 : Session),
    feedChunks s chunks = some s2 → s2.millis = s.millis := by
  intro chunks
  induction chunks with
  | nil => intro s s2 h; simp only [feedChunks, Option.some.injEq] at h; rw [h]
  | cons c rest ih =>
    intro s s2 h
    unfold feedChunks at h
    split at h
    · exact absurd h (by simp)
    · next s3 hc => rw [ih s3 s2 h, NotifyCallBack_millis _ _ _ hc]

theorem delay_millis (ms : Nat) (s s2 : Session) (h : delay ms s = some s2) :
    s2.millis = s.millis + ms := by
  unfold delay at h
  split at h
  · simp only [Option.some.injEq] at h; rw [← h]
  · rw [feedChunks_millis _ _ _ h]

/-- After `n` quiet polls that end in a session holding a response, the
polling loop stops there and reports that a response is present. -/
theorem checkResponseWait_after_idle : ∀ (n : Nat) (s s1 : Session) (startTime fuel : Nat),
    idlePolls n s = some s1 → s1.pn532Responses ≠ [] → n < fuel →
    s.millis + 10 * n ≤ startTime + 4010 →
    checkResponseWait startTime fuel s = some (true, s1) := by
  intro n
  induction n with
  | zero =>
    intro s s1 startTime fuel hi hne hf _
    simp only [idlePolls, Option.some.injEq] at hi
    subst hi
    obtain ⟨f, rfl⟩ : ∃ f, fuel = f + 1 := ⟨fuel - 1, by omega⟩
    unfold checkResponseWait
    rw [if_neg (by simpa using hne)]
  | succ n ih =>
    intro s s1 startTime fuel hi hne hf ht
    obtain ⟨f, rfl⟩ : ∃ f, fuel = f + 1 := ⟨fuel - 1, by omega⟩
    unfold idlePolls at hi
    split at hi
    · next hemp =>
      unfold checkResponseWait
      rw [if_pos hemp, if_neg (by omega)]
      split at hi
      · exact absurd hi (by simp)
      · next s3 hd =>
        exact ih s3 s1 startTime f hi hne (by omega) (by rw [delay_millis _ _ _ hd]; omega)
    · exact absurd hi (by simp)

/-- The outcome of `checkResponse` once the polling loop has stopped in `s1`
with a response present: the first response with the sent command decides. -/
theorem checkResponse_of_wait (cmd : Nat) (s s1 : Session)
    (hw : checkResponseWait s.millis 402 s = some (true, s1)) :
    checkResponse cmd s =
      match s1.pn532Responses.find? (fun response => response.command == cmd) with
      | some it => some (true, { s1 with cmdResponse := it, pn532Responses := [] })
      | none => some (false, s1) := by
  unfold checkResponse
  rw [hw]

/-- C9: for every non-empty list of decoded responses and every sent command
`cmd`, `checkResponse(cmd)` returns true if and only if some response in the
list has command field `cmd`; when it returns true, `cmdResponse` is the
first such response of the list and the list is empty afterwards. -/
theorem checkResponse_correlates (cmd : Nat) (s : Session) (hne : s.pn532Responses ≠ []) :
    ∃ res s2, checkResponse cmd s = some (res, s2) ∧
      (res = true ↔ ∃ r ∈ s.pn532Responses, r.command = cmd) ∧
      (res = true → s2.pn532Responses = [] ∧
        ∃ pre post, s.pn532Responses = pre ++ s2.cmdResponse :: post ∧
          (∀ r ∈ pre, r.command ≠ cmd) ∧ s2.cmdResponse.command = cmd) := by
  have hw : checkResponseWait s.millis 402 s = some (true, s) :=
    checkResponseWait_after_idle 0 s s s.millis 402 rfl hne (by omega) (by omega)
  rw [checkResponse_of_wait cmd s s hw]
  cases hfind : s.pn532Responses.find? (fun response => response.command == cmd) with
  | none =>
    refine ⟨false, s, rfl, ?_, by simp⟩
    rw [List.find?_eq_none] at hfind
    constructor
    · intro h; exact absurd h (by simp)
    · rintro ⟨r, hr, hc⟩
      exact absurd (by simpa using hc) (hfind r hr)
  | some it =>
    rw [List.find?_eq_some] at hfind
    obtain ⟨hit, pre, post, hl, hpre⟩ := hfind
    have hitc : it.command = cmd := by simpa using hit
    refine ⟨true, _, rfl, ?_, ?_⟩
    · constructor
      · intro _
        exact ⟨it, by rw [hl]; simp, hitc⟩
      · intro _; rfl
    · intro _
      refine ⟨rfl, pre, post, hl, ?_, hitc⟩
      intro r hr
      simpa using hpre r hr

/-- Witness of C9: two responses in the list, for commands 0x02 and 0x4A;
`checkResponse(0x4A)` picks the second. -/
theorem checkResponse_correlates_witness :
    ∃ res s2, checkResponse 0x4A
        { freshSession with
          pn532Responses :=
            [{ raw := [], length := 0, command := 0x02, status := none, dataSize := 0, data := [] },
             { raw := [], length := 0, command := 0x4A, status := none, dataSize := 1,
               data := [0x00] }] } = some (res, s2) ∧
      (res = true ↔ ∃ r ∈ ({ freshSession with
          pn532Responses :=
            [{ raw := [], length := 0, command := 0x02, status := none, dataSize := 0, data := [] },
             { raw := [], length := 0, command := 0x4A, status := none, dataSize := 1,
               data := [0x00] }] } : Session).pn532Responses, r.command = 0x4A) ∧
      (res = true → s2.pn532Responses = [] ∧
        ∃ pre post, ({ freshSession with
          pn532Responses :=
            [{ raw := [], length := 0, command := 0x02, status := none, dataSize := 0, data := [] },
             { raw := [], length := 0, command := 0x4A, status := none, dataSize := 1,
               data := [0x00] }] } : Session).pn532Responses = pre ++ s2.cmdResponse :: post ∧
          (∀ r ∈ pre, r.command ≠ 0x4A) ∧ s2.cmdResponse.command = 0x4A) :=
  checkResponse_correlates 0x4A _ (by simp)

/-- C10, counterexample: `InListPassiveTarget` (0x4A) is sent; nothing arrives
during the `delay(10)` after the write, the stray reply to command 0x02 is
decoded during the first poll, and the matching reply is scheduled for the
next poll, 20 ms after the write.  `writeCommand` returns false after the
first poll: the matching reply is still waiting to be delivered, and the
stray response is still in the list. -/
theorem writeCommand_fails_on_stray_reply :
    ∃ s2, writeCommand (fun _ => true) 0x4A [0x01, 0x00]
        { freshSession with incoming := [[], [firmwareReply], [scanReply]] } = some (false, s2) ∧
      s2.pn532Responses = [firmwareResponse] ∧ s2.incoming = [[scanReply]] ∧
      s2.millis = 20 := by
  refine ⟨{ freshSession with
      pn532Responses := [firmwareResponse], incoming := [[scanReply]], millis := 20,
      transmitted := [[0x00, 0x00, 0xFF, 0x04, 0xFC, 0xD4, 0x4A, 0x01, 0x00, 0xE1, 0x00]] },
    by decide, rfl, rfl, rfl⟩

/-- C10, amended: a decoded response whose command field does not match the
sent command does not satisfy the wait, and the wait does not continue past
it.  When the polling loop of `checkResponse`, after `n ≤ 401` quiet polls,
finds the response list non-empty, then (1) if no response in the list has
the sent command, `checkResponse` returns false at once, without a further
`delay` (clock and pending notifications are those of that poll); (2) if
the list holds stray responses followed by a response with the sent command,
`checkResponse` returns true with that response as `cmdResponse`, and the
list is empty afterwards, so the strays are gone. -/
theorem checkResponse_mismatch_fails_at_once (cmd n : Nat) (s s1 : Session)
    (hidle : idlePolls n s = some s1) (hn : n ≤ 401) (hne : s1.pn532Responses ≠ []) :
    ((∀ r ∈ s1.pn532Responses, r.command ≠ cmd) →
      ∃ s2, checkResponse cmd s = some (false, s2) ∧ s2.millis = s1.millis ∧
        s2.incoming = s1.incoming) ∧
    (∀ pre m post, s1.pn532Responses = pre ++ m :: post → (∀ r ∈ pre, r.command ≠ cmd) →
      m.command = cmd →
      checkResponse cmd s = some (true, { s1 with cmdResponse := m, pn532Responses := [] })) := by
  have hw : checkResponseWait s.millis 402 s = some (true, s1) :=
    checkResponseWait_after_idle n s s1 s.millis 402 hidle hne (by omega) (by omega)
  rw [checkResponse_of_wait cmd s s1 hw]
  constructor
  · intro hno
    have hfind : s1.pn532Responses.find? (fun response => response.command == cmd) = none := by
      rw [List.find?_eq_none]
      intro r hr
      simpa using hno r hr
    rw [hfind]
    exact ⟨s1, rfl, rfl, rfl⟩
  · intro pre m post hl hpre hm
    have hfind : s1.pn532Responses.find? (fun response => response.command == cmd) = some m := by
      rw [List.find?_eq_some]
      refine ⟨by simpa using hm, pre, post, hl, ?_⟩
      intro r hr
      simpa using hpre r hr
    rw [hfind]

/-- Witness of the amended C10, while 0x4A is awaited: (1) the stray reply
to command 0x02 is decoded during the first poll and the matching reply is
scheduled for the next one; (2) both replies are decoded during the first
poll, the stray one first. -/
theorem checkResponse_mismatch_fails_at_once_witness :
    (∃ s2, checkResponse 0x4A { freshSession with incoming := [[firmwareReply], [scanReply]] } =
        some (false, s2) ∧ s2.millis = 10 ∧ s2.incoming = [[scanReply]]) ∧
    checkResponse 0x4A { freshSession with incoming := [[firmwareReply, scanReply]] } =
      some (true, { freshSession with cmdResponse := scanResponse, millis := 10 }) :=
  ⟨(checkResponse_mismatch_fails_at_once 0x4A 1
      { freshSession with incoming := [[firmwareReply], [scanReply]] }
      { freshSession with
        pn532Responses := [firmwareResponse], incoming := [[scanReply]], millis := 10 }
      (by decide) (by decide) (by decide)).1 (by decide),
   (checkResponse_mismatch_fails_at_once 0x4A 1
      { freshSession with incoming := [[firmwareReply, scanReply]] }
      { freshSession with pn532Responses := [firmwareResponse, scanResponse], millis := 10 }
      (by decide) (by decide) (by decide)).2 [firmwareResponse] scanResponse [] rfl (by decide)
      rfl⟩

/-! ## Further properties of the decoder and of the wait -/

/-- The polling loop of `checkResponse` ends within 402 iterations: once the
bound allows `fuel + 1` iterations and `10 * fuel` more milliseconds take
the clock past the deadline, a larger bound gives the same result. -/
theorem checkResponseWait_fuel : ∀ (fuel : Nat) (s : Session) (startTime extra : Nat),
    startTime + 4000 < s.millis + 10 * fuel →
    checkResponseWait startTime (fuel + 1 + extra) s = checkResponseWait startTime (fuel + 1) s := by
  intro fuel
  induction fuel with
  | zero =>
    intro s startTime extra h
    rw [show 0 + 1 + extra = extra + 1 by omega]
    unfold checkResponseWait
    split
    · rw [if_pos (by omega), if_pos (by omega)]
    · rfl
  | succ fuel ih =>
    intro s startTime extra h
    rw [show fuel + 1 + 1 + extra = (fuel + 1 + extra) + 1 by omega]
    unfold checkResponseWait
    split
    · split
      · rfl
      · cases hd : delay 10 s with
        | none => rfl
        | some s1 =>
          exact ih s1 startTime extra (by rw [delay_millis _ _ _ hd]; omega)
    · rfl

/-- The bound 402 built into `checkResponse` is never the reason for its
result: any larger bound gives the same outcome of the polling loop. -/
theorem checkResponse_bound_suffices (s : Session) (extra : Nat) :
    checkResponseWait s.millis (402 + extra) s = checkResponseWait s.millis 402 s :=
  checkResponseWait_fuel 401 s s.millis extra (by omega)

/-- A buffer of fewer than 10 bytes is never a complete frame, and
`isCompleteFrame` leaves the session as it is. -/
theorem isCompleteFrame_short (s : Session) (pData : List Nat) (length : Nat)
    (h : length < 10) : isCompleteFrame s pData length = some (false, s) :=
  isCompleteFrame_of_lt_ten s pData length h

/-- Witness: a buffer of three bytes. -/
theorem isCompleteFrame_short_witness :
    isCompleteFrame freshSession [0x00, 0x00, 0xFF] 3 = some (false, freshSession) :=
  isCompleteFrame_short freshSession [0x00, 0x00, 0xFF] 3 (by decide)

/-- The length-checksum gate as the code evaluates it: for a buffer of at
least 11 bytes, not longer than `len + 13`, with `len + lcs` odd,
`isCompleteFrame` returns false and empties the receive buffer. -/
theorem isCompleteFrame_odd_length_sum (s : Session) (pData : List Nat) (len lcs : Nat)
    (hmin : 11 ≤ pData.length) (h9 : pData[9]? = some len) (h10 : pData[10]? = some lcs)
    (hlen : ¬ len + 13 < pData.length) (hodd : (len + lcs) % 2 = 1) :
    isCompleteFrame s pData pData.length = some (false, { s with pn532bleBuffer := [] }) := by
  unfold isCompleteFrame
  rw [if_neg (by omega), h9, h10]
  simp only [Nat.and_one_is_mod, ne_eq, OfNat.ofNat_ne_zero, not_false_eq_true, if_true]
  rw [if_neg hlen, if_pos (by omega)]

/-- Witness: length byte 2 with length-checksum byte 0xFF. -/
theorem isCompleteFrame_odd_length_sum_witness :
    isCompleteFrame freshSession
      [0x00, 0x00, 0xFF, 0x00, 0xFF, 0x00, 0x00, 0x00, 0xFF, 0x02, 0xFF, 0xD5, 0x03, 0x28, 0x00]
      [0x00, 0x00, 0xFF, 0x00, 0xFF, 0x00, 0x00, 0x00, 0xFF, 0x02, 0xFF, 0xD5, 0x03, 0x28,
        0x00].length = some (false, { freshSession with pn532bleBuffer := [] }) :=
  isCompleteFrame_odd_length_sum freshSession
    [0x00, 0x00, 0xFF, 0x00, 0xFF, 0x00, 0x00, 0x00, 0xFF, 0x02, 0xFF, 0xD5, 0x03, 0x28, 0x00]
    0x02 0xFF (by decide) (by decide) (by decide) (by decide) (by decide)

/-- Reassembly below the 10-byte threshold: when the receive buffer together
with a first chunk holds fewer than 10 bytes, delivering that chunk and then
a second one has the same effect as delivering both as one chunk. -/
theorem feedChunks_split_before_ten (s : Session) (c1 c2 : List Nat)
    (h : (s.pn532bleBuffer ++ c1).length < 10) :
    feedChunks s [c1, c2] = feedChunks s [c1 ++ c2] := by
  have h1 : NotifyCallBack s c1 = some { s with pn532bleBuffer := s.pn532bleBuffer ++ c1 } :=
    NotifyCallBack_of_rejected s _ c1 (isCompleteFrame_of_lt_ten _ _ _ h)
  have h2 : NotifyCallBack { s with pn532bleBuffer := s.pn532bleBuffer ++ c1 } c2 =
      NotifyCallBack s (c1 ++ c2) := by
    unfold NotifyCallBack
    simp only [List.append_assoc]
  simp only [feedChunks, h1, h2]

/-- Witness: the reply to `GetFirmwareVersion` split after nine bytes. -/
theorem feedChunks_split_before_ten_witness :
    feedChunks freshSession [firmwareReply.take 9, firmwareReply.drop 9] =
      feedChunks freshSession [firmwareReply.take 9 ++ firmwareReply.drop 9] :=
  feedChunks_split_before_ten freshSession (firmwareReply.take 9) (firmwareReply.drop 9)
    (by decide)

/-! ## Exchanges: an answered command, a command that times out -/

theorem buildFrame_frameOf (cmd : Nat) (data : List Nat) :
    buildFrame cmd data = some (frameOf cmd data) :=
  buildFrame_eq cmd data

theorem transmitCommand_eq (writeValue : List Nat → Bool) (cmd : Nat) (data : List Nat)
    (s : Session) :
    transmitCommand writeValue cmd data s =
      some (writeValue (frameOf cmd data),
        { s with pn532bleBuffer := [], transmitted := s.transmitted ++ [frameOf cmd data] }) := by
  unfold transmitCommand
  simp only [buildFrame_frameOf]

theorem delay_quiet (ms : Nat) (s : Session) (rest : List (List (List Nat)))
    (hi : s.incoming = [] :: rest) :
    delay ms s = some { s with millis := s.millis + ms, incoming := rest } := by
  unfold delay
  rw [hi]
  rfl

theorem delay_nothing (ms : Nat) (s : Session) (hi : s.incoming = []) :
    delay ms s = some { s with millis := s.millis + ms } := by
  unfold delay
  rw [hi]

theorem delay_reply (ms cmd : Nat) (s : Session) (r : Reply) (rest : List (List (List Nat)))
    (hc : cmd ≤ 254) (hr : r.wellFormed) (hb : s.pn532bleBuffer = [])
    (hl : s.pn532Responses = []) (hi : s.incoming = [r.bytes cmd] :: rest) :
    delay ms s = some { s with pn532Responses := [r.response cmd], pn532bleBuffer := [],
                               millis := s.millis + ms, incoming := rest } := by
  obtain ⟨_, hlead, hpay⟩ := hr
  unfold delay
  rw [hi]
  simp only [feedChunks]
  have h := NotifyCallBack_accepts { s with millis := s.millis + ms, incoming := rest } r.lead
    r.payload 0xD5 (cmd + 1) hb hlead hpay (by omega) (by omega)
  unfold Reply.bytes
  rw [h]
  simp only [hl, List.nil_append, Nat.add_sub_cancel, Reply.response, Reply.bytes]

theorem idlePolls_script (cmd : Nat) (r : Reply) (rest : List (List (List Nat)))
    (hc : cmd ≤ 254) (hr : r.wellFormed) : ∀ (j : Nat) (s : Session),
    s.pn532bleBuffer = [] → s.pn532Responses = [] →
    s.incoming = List.replicate j [] ++ [r.bytes cmd] :: rest →
    idlePolls (j + 1) s =
      some { s with pn532Responses := [r.response cmd], pn532bleBuffer := [],
                    millis := s.millis + 10 * (j + 1), incoming := rest } := by
  intro j
  induction j with
  | zero =>
    intro s hb hl hi
    simp only [List.replicate, List.nil_append] at hi
    unfold idlePolls
    rw [if_pos (by rw [hl]; rfl), delay_reply 10 cmd s r rest hc hr hb hl hi]
    simp only [idlePolls]
  | succ j ih =>
    intro s hb hl hi
    simp only [List.replicate, List.cons_append] at hi
    unfold idlePolls
    rw [if_pos (by rw [hl]; rfl), delay_quiet 10 s _ hi]
    simp only
    rw [ih { s with millis := s.millis + 10,
                    incoming := List.replicate j [] ++ [r.bytes cmd] :: rest } hb hl rfl]
    simp only [Option.some.injEq, Session.mk.injEq, true_and, and_true]
    omega

/-- An answered exchange: when no response is pending and the reply `r` to
`cmd` is what arrives next, `writeCommand` returns the answer of the write
characteristic and leaves `r` as `cmdResponse`. -/
theorem writeCommand_answered (writeValue : List Nat → Bool) (cmd : Nat) (data : List Nat)
    (s : Session) (r : Reply) (rest : List (List (List Nat)))
    (hc : cmd ≤ 254) (hr : r.wellFormed) (hl : s.pn532Responses = [])
    (hi : s.incoming = r.script cmd ++ rest) :
    writeCommand writeValue cmd data s =
      some (writeValue (frameOf cmd data), afterReply s cmd data r rest) := by
  have hmod : cmd % 256 = cmd := Nat.mod_eq_of_lt (by omega)
  have hfind : ∀ s2 : Session, s2.pn532Responses = [r.response cmd] →
      s2.pn532Responses.find? (fun response => response.command == cmd) =
        some (r.response cmd) := by
    intro s2 h2
    rw [h2]
    simp [Reply.response]
  unfold writeCommand
  rw [transmitCommand_eq]
  simp only [hmod]
  unfold Reply.script at hi
  cases hidle : r.idle with
  | zero =>
    rw [hidle] at hi
    simp only [List.replicate, List.nil_append, List.singleton_append] at hi
    rw [delay_reply 10 cmd
      { s with pn532bleBuffer := [], transmitted := s.transmitted ++ [frameOf cmd data] }
      r rest hc hr rfl hl hi]
    simp only
    rw [checkResponse_of_wait cmd _ _
      (checkResponseWait_after_idle 0 _ _ _ 402 rfl (by simp) (by omega) (by omega))]
    rw [hfind _ rfl]
    simp only [Bool.and_true, afterReply, hidle]
  | succ j =>
    rw [hidle] at hi
    simp only [List.replicate, List.cons_append, List.append_assoc, List.singleton_append,
      List.nil_append] at hi
    rw [delay_quiet 10
      { s with pn532bleBuffer := [], transmitted := s.transmitted ++ [frameOf cmd data] } _ hi]
    simp only
    have hpoll := idlePolls_script cmd r rest hc hr j
      { s with pn532bleBuffer := [], transmitted := s.transmitted ++ [frameOf cmd data],
               millis := s.millis + 10,
               incoming := List.replicate j [] ++ [r.bytes cmd] :: rest } rfl hl rfl
    have hj : j + 1 ≤ 401 := by have := hr.1; omega
    rw [checkResponse_of_wait cmd _ _
      (checkResponseWait_after_idle (j + 1) _ _ _ 402 hpoll (by simp) (by omega)
        (by simp only; omega))]
    rw [hfind _ rfl]
    simp only [Bool.and_true, afterReply, hidle, Option.some.injEq, Prod.mk.injEq,
      Session.mk.injEq, true_and, and_true]
    omega

theorem checkResponseWait_timeout : ∀ (n : Nat) (s : Session) (startTime fuel : Nat),
    s.pn532Responses = [] → s.incoming = [] → s.millis + 10 * n = startTime + 4010 → n < fuel →
    checkResponseWait startTime fuel s = some (false, { s with millis := startTime + 4010 }) := by
  intro n
  induction n with
  | zero =>
    intro s startTime fuel hl _ ht hf
    obtain ⟨f, rfl⟩ : ∃ f, fuel = f + 1 := ⟨fuel - 1, by omega⟩
    unfold checkResponseWait
    rw [if_pos (by rw [hl]; rfl), if_pos (by omega)]
    have hm : s.millis = startTime + 4010 := by omega
    rw [← hm]
  | succ n ih =>
    intro s startTime fuel hl hi ht hf
    obtain ⟨f, rfl⟩ : ∃ f, fuel = f + 1 := ⟨fuel - 1, by omega⟩
    unfold checkResponseWait
    rw [if_pos (by rw [hl]; rfl), if_neg (by omega), delay_nothing 10 s hi]
    simp only
    rw [ih { s with millis := s.millis + 10 } startTime f hl hi (by simp only; omega) (by omega)]

/-- An exchange that times out: when no response is pending and nothing
arrives, `writeCommand` returns false after 4020 ms. -/
theorem writeCommand_timeout (writeValue : List Nat → Bool) (cmd : Nat) (data : List Nat)
    (s : Session) (hl : s.pn532Responses = []) (hi : s.incoming = []) :
    writeCommand writeValue cmd data s = some (false, afterTimeout s cmd data) := by
  unfold writeCommand
  rw [transmitCommand_eq]
  simp only
  rw [delay_nothing 10
    { s with pn532bleBuffer := [], transmitted := s.transmitted ++ [frameOf cmd data] } hi]
  simp only
  unfold checkResponse
  rw [checkResponseWait_timeout 401
    { s with pn532bleBuffer := [], transmitted := s.transmitted ++ [frameOf cmd data],
             millis := s.millis + 10 } (s.millis + 10) 402 hl hi (by simp only) (by omega)]
  simp only [Bool.and_false, afterTimeout, Option.some.injEq, Prod.mk.injEq, Session.mk.injEq,
    true_and, and_true]

theorem sendData_answered (writeValue : List Nat → Bool) (data : List Nat) (append_crc : Bool)
    (s : Session) (r : Reply) (rest : List (List (List Nat)))
    (hr : r.wellFormed) (hl : s.pn532Responses = [])
    (hi : s.incoming = r.script InCommunicateThru ++ rest) :
    sendData writeValue data append_crc s =
      some (r.payload, afterReply s InCommunicateThru
        (if append_crc then appendCrcA data else data) r rest) := by
  unfold sendData
  simp only
  rw [writeCommand_answered writeValue InCommunicateThru _ s r rest (by decide) hr hl hi]
  simp only [afterReply, Reply.response, le_refl, if_true, List.take_length]

theorem sendData_timeout (writeValue : List Nat → Bool) (data : List Nat) (append_crc : Bool)
    (s : Session) (hl : s.pn532Responses = []) (hi : s.incoming = [])
    (hd : s.cmdResponse.dataSize ≤ s.cmdResponse.data.length) :
    sendData writeValue data append_crc s =
      some (s.cmdResponse.data.take s.cmdResponse.dataSize,
        afterTimeout s InCommunicateThru (if append_crc then appendCrcA data else data)) := by
  unfold sendData
  simp only
  rw [writeCommand_timeout writeValue InCommunicateThru _ s hl hi]
  simp only [afterTimeout, hd, if_true]

/-! ## Residual state of a send: C11, C12 -/

/-- C11, evaluation at the failing input: the response list holds the decoded
reply to command 0x02 that a failed earlier send left behind (the end state
of the scenario of C10), and nothing arrives any more.  `transmitCommand`
(cpp 231-264) clears the receive buffer but not the list, so (1) a new send
of `GetFirmwareVersion` (0x02) returns true after the first `delay(10)` with
the old response as `cmdResponse`, and (2) a send of `SAMConfiguration`
(0x14) returns false after the first `delay(10)`, without waiting. -/
theorem writeCommand_keeps_stale_responses :
    (transmitCommand (fun _ => true) GetFirmwareVersion []
        { freshSession with pn532Responses := [firmwareResponse] }).map
      (fun r => r.2.pn532Responses) = some [firmwareResponse] ∧
    writeCommand (fun _ => true) GetFirmwareVersion []
        { freshSession with pn532Responses := [firmwareResponse] } =
      some (true, { freshSession with
        cmdResponse := firmwareResponse, millis := 10,
        transmitted := [[0x00, 0x00, 0xFF, 0x02, 0xFE, 0xD4, 0x02, 0x2A, 0x00]] }) ∧
    writeCommand (fun _ => true) SAMConfiguration [0x01]
        { freshSession with pn532Responses := [firmwareResponse] } =
      some (false, { freshSession with
        pn532Responses := [firmwareResponse], millis := 10,
        transmitted := [[0x00, 0x00, 0xFF, 0x03, 0xFD, 0xD4, 0x14, 0x01, 0x17, 0x00]] }) := by
  refine ⟨by decide, by decide, by decide⟩

/-! Steps of a session, with the state after the step described by its fields. -/

theorem pause_nothing (ms : Nat) (s : Session) (hi : s.incoming = []) :
    ∃ s2, delay ms s = some s2 ∧ s2.pn532Responses = s.pn532Responses ∧ s2.incoming = [] ∧
      s2.cmdResponse = s.cmdResponse ∧ s2.millis = s.millis + ms ∧
      s2.transmitted = s.transmitted :=
  ⟨_, delay_nothing ms s hi, rfl, hi, rfl, rfl, rfl⟩

theorem pause_quiet (ms : Nat) (s : Session) (rest : List (List (List Nat)))
    (hi : s.incoming = [] :: rest) :
    ∃ s2, delay ms s = some s2 ∧ s2.pn532Responses = s.pn532Responses ∧ s2.incoming = rest ∧
      s2.cmdResponse = s.cmdResponse ∧ s2.transmitted = s.transmitted :=
  ⟨_, delay_quiet ms s rest hi, rfl, rfl, rfl, rfl⟩

theorem exchange_timeout (writeValue : List Nat → Bool) (cmd : Nat) (data : List Nat)
    (s : Session) (hl : s.pn532Responses = []) (hi : s.incoming = []) :
    ∃ s2, writeCommand writeValue cmd data s = some (false, s2) ∧ s2.pn532Responses = [] ∧
      s2.incoming = [] ∧ s2.cmdResponse = s.cmdResponse ∧ s2.millis = s.millis + 4020 ∧
      s2.transmitted = s.transmitted ++ [frameOf cmd data] :=
  ⟨_, writeCommand_timeout writeValue cmd data s hl hi, hl, hi, rfl, rfl, rfl⟩

theorem exchange_answered (writeValue : List Nat → Bool) (cmd : Nat) (data : List Nat)
    (s : Session) (r : Reply) (rest : List (List (List Nat)))
    (hc : cmd ≤ 254) (hr : r.wellFormed) (hl : s.pn532Responses = [])
    (hi : s.incoming = r.script cmd ++ rest) :
    ∃ s2, writeCommand writeValue cmd data s = some (writeValue (frameOf cmd data), s2) ∧
      s2.pn532Responses = [] ∧ s2.incoming = rest ∧ s2.cmdResponse = r.response cmd ∧
      s2.transmitted = s.transmitted ++ [frameOf cmd data] :=
  ⟨_, writeCommand_answered writeValue cmd data s r rest hc hr hl hi, rfl, rfl, rfl, rfl⟩

theorem sendData_step_timeout (writeValue : List Nat → Bool) (data : List Nat)
    (s : Session) (hl : s.pn532Responses = []) (hi : s.incoming = [])
    (hd : s.cmdResponse.dataSize ≤ s.cmdResponse.data.length) :
    ∃ s2, sendData writeValue data false s =
        some (s.cmdResponse.data.take s.cmdResponse.dataSize, s2) ∧
      s2.pn532Responses = [] ∧ s2.incoming = [] ∧ s2.cmdResponse = s.cmdResponse ∧
      s2.millis = s.millis + 4020 ∧
      s2.transmitted = s.transmitted ++ [frameOf InCommunicateThru data] :=
  ⟨_, sendData_timeout writeValue data false s hl hi hd, hl, hi, rfl, rfl, rfl⟩

theorem sendData_step_answered (writeValue : List Nat → Bool) (data : List Nat)
    (append_crc : Bool) (s : Session) (r : Reply) (rest : List (List (List Nat)))
    (hr : r.wellFormed) (hl : s.pn532Responses = [])
    (hi : s.incoming = r.script InCommunicateThru ++ rest) :
    ∃ s2, sendData writeValue data append_crc s = some (r.payload, s2) ∧
      s2.pn532Responses = [] ∧ s2.incoming = rest ∧
      s2.transmitted = s.transmitted ++
        [frameOf InCommunicateThru (if append_crc then appendCrcA data else data)] :=
  ⟨_, sendData_answered writeValue data append_crc s r rest hr hl hi, rfl, rfl, rfl⟩

theorem halt_step_timeout (writeValue : List Nat → Bool) (s : Session)
    (hl : s.pn532Responses = []) (hi : s.incoming = [])
    (hd : s.cmdResponse.dataSize ≤ s.cmdResponse.data.length) :
    ∃ s2, halt writeValue s = some (true, s2) ∧ s2.pn532Responses = [] ∧ s2.incoming = [] ∧
      s2.cmdResponse = s.cmdResponse ∧ s2.millis = s.millis + 8040 ∧
      s2.transmitted = s.transmitted ++
        [frameOf WriteRegister [0x63, 0x02, 0x00, 0x63, 0x03, 0x00],
         frameOf InCommunicateThru [0x50, 0x00]] := by
  obtain ⟨s1, h1, hl1, hi1, hc1, hm1, ht1⟩ :=
    exchange_timeout writeValue WriteRegister [0x63, 0x02, 0x00, 0x63, 0x03, 0x00] s hl hi
  obtain ⟨s2, h2, hl2, hi2, hc2, hm2, ht2⟩ :=
    sendData_step_timeout writeValue [0x50, 0x00] s1 hl1 hi1 (by rw [hc1]; exact hd)
  refine ⟨s2, ?_, hl2, hi2, hc2.trans hc1, by omega, by rw [ht2, ht1]; simp⟩
  unfold halt resetRegister
  rw [h1]
  simp only
  rw [h2]

theorem send7bit_step_timeout (writeValue : List Nat → Bool) (data : List Nat) (s : Session)
    (hl : s.pn532Responses = []) (hi : s.incoming = [])
    (hd : s.cmdResponse.dataSize ≤ s.cmdResponse.data.length) :
    ∃ s2, send7bit writeValue data s =
        some (s.cmdResponse.data.take s.cmdResponse.dataSize, s2) ∧
      s2.pn532Responses = [] ∧ s2.incoming = [] ∧ s2.cmdResponse = s.cmdResponse ∧
      s2.millis = s.millis + 12060 ∧
      s2.transmitted = s.transmitted ++
        [frameOf WriteRegister [0x63, 0x3D, 0x07], frameOf InCommunicateThru data,
         frameOf WriteRegister [0x63, 0x3D, 0x00]] := by
  obtain ⟨s1, h1, hl1, hi1, hc1, hm1, ht1⟩ :=
    exchange_timeout writeValue WriteRegister [0x63, 0x3D, 0x07] s hl hi
  obtain ⟨s2, h2, hl2, hi2, hc2, hm2, ht2⟩ :=
    sendData_step_timeout writeValue data s1 hl1 hi1 (by rw [hc1]; exact hd)
  obtain ⟨s3, h3, hl3, hi3, hc3, hm3, ht3⟩ :=
    exchange_timeout writeValue WriteRegister [0x63, 0x3D, 0x00] s2 hl2 hi2
  refine ⟨s3, ?_, hl3, hi3, by rw [hc3, hc2, hc1], by omega, by rw [ht3, ht2, ht1]; simp⟩
  unfold send7bit
  rw [h1]
  simp only
  rw [h2]
  simp only
  rw [h3, hc1]

/-- With nothing arriving, every exchange of `isGen1A` times out, and the
result is decided by the `cmdResponse` left by an earlier exchange. -/
theorem isGen1A_all_timeouts (writeValue : List Nat → Bool) (s : Session) (x : Nat)
    (hl : s.pn532Responses = []) (hi : s.incoming = [])
    (hsize : s.cmdResponse.dataSize = 2) (hdata : s.cmdResponse.data = [x, 0x0A]) :
    ∃ s2, isGen1A writeValue s = some (true, s2) ∧ s2.millis = s.millis + 24140 ∧
      s2.pn532Responses = [] ∧ s2.transmitted.length = s.transmitted.length + 6 := by
  have hd : s.cmdResponse.dataSize ≤ s.cmdResponse.data.length := by rw [hsize, hdata]; simp
  have htake : s.cmdResponse.data.take s.cmdResponse.dataSize = [x, 0x0A] := by
    rw [hsize, hdata]; rfl
  have hyes : ([x, 0x0A] : List Nat).length = 2 ∧ ([x, 0x0A] : List Nat)[1]? = some 0x0A := by
    simp
  obtain ⟨s1, h1, hl1, hi1, hc1, hm1, ht1⟩ := halt_step_timeout writeValue s hl hi hd
  obtain ⟨s2, h2, hl2, hi2, hc2, hm2, ht2⟩ :=
    send7bit_step_timeout writeValue [0x40] s1 hl1 hi1 (by rw [hc1]; exact hd)
  obtain ⟨s3, h3, hl3, hi3, hc3, hm3, ht3⟩ := pause_nothing 10 s2 hi2
  obtain ⟨s4, h4, hl4, hi4, hc4, hm4, ht4⟩ :=
    sendData_step_timeout writeValue [0x43] s3 (hl3.trans hl2) hi3
      (by rw [hc3, hc2, hc1]; exact hd)
  obtain ⟨s5, h5, hl5, hi5, hc5, hm5, ht5⟩ := pause_nothing 10 s4 hi4
  refine ⟨s5, ?_, by omega, hl5.trans hl4, ?_⟩
  · unfold isGen1A
    rw [h1]
    simp only
    rw [h2, hc1, htake]
    simp only
    rw [if_pos hyes, h3]
    simp only
    rw [h4, hc3, hc2, hc1, htake]
    simp only
    rw [if_pos hyes, h5]
  · rw [ht5, ht4, ht3, ht2, ht1]
    simp

/-- C12, evaluation at the failing input: `cmdResponse` still holds the reply
`00 0A` of an earlier `InCommunicateThru` exchange, no response is pending
and nothing arrives, so each of the six exchanges of `isGen1A` times out.
`sendData` returns `cmdResponse.data` whatever `writeCommand` returned, and
`isGen1A` returns true. -/
theorem isGen1A_true_on_timeouts :
    ∃ s2, isGen1A (fun _ => true) { freshSession with cmdResponse := unlockResponse } =
        some (true, s2) ∧
      s2.millis = 24140 ∧ s2.pn532Responses = [] ∧ s2.transmitted.length = 6 := by
  obtain ⟨s2, h, hm, hc, ht⟩ := isGen1A_all_timeouts (fun _ => true)
    { freshSession with cmdResponse := unlockResponse } 0x00 rfl rfl rfl rfl
  exact ⟨s2, h, by simpa using hm, hc, by simpa using ht⟩

/-! ## Gen1A probe: C13 -/

theorem halt_step_answered (writeValue : List Nat → Bool) (s : Session) (r1 r2 : Reply)
    (rest : List (List (List Nat))) (hr1 : r1.wellFormed) (hr2 : r2.wellFormed)
    (hl : s.pn532Responses = [])
    (hi : s.incoming = r1.script WriteRegister ++ (r2.script InCommunicateThru ++ rest)) :
    ∃ s2, halt writeValue s = some (true, s2) ∧ s2.pn532Responses = [] ∧ s2.incoming = rest ∧
      s2.transmitted = s.transmitted ++
        [frameOf WriteRegister [0x63, 0x02, 0x00, 0x63, 0x03, 0x00],
         frameOf InCommunicateThru [0x50, 0x00]] := by
  obtain ⟨s1, h1, hl1, hi1, _, ht1⟩ := exchange_answered writeValue WriteRegister
    [0x63, 0x02, 0x00, 0x63, 0x03, 0x00] s r1 _ (by decide) hr1 hl hi
  obtain ⟨s2, h2, hl2, hi2, ht2⟩ :=
    sendData_step_answered writeValue [0x50, 0x00] false s1 r2 rest hr2 hl1 hi1
  refine ⟨s2, ?_, hl2, hi2, by rw [ht2, ht1]; simp⟩
  unfold halt resetRegister
  rw [h1]
  simp only
  rw [h2]

theorem send7bit_step_answered (writeValue : List Nat → Bool) (data : List Nat) (s : Session)
    (r1 r2 r3 : Reply) (rest : List (List (List Nat)))
    (hr1 : r1.wellFormed) (hr2 : r2.wellFormed) (hr3 : r3.wellFormed)
    (hl : s.pn532Responses = [])
    (hi : s.incoming = r1.script WriteRegister ++ (r2.script InCommunicateThru ++
      (r3.script WriteRegister ++ rest))) :
    ∃ s2, send7bit writeValue data s = some (r2.payload, s2) ∧ s2.pn532Responses = [] ∧
      s2.incoming = rest ∧
      s2.transmitted = s.transmitted ++
        [frameOf WriteRegister [0x63, 0x3D, 0x07], frameOf InCommunicateThru data,
         frameOf WriteRegister [0x63, 0x3D, 0x00]] := by
  obtain ⟨s1, h1, hl1, hi1, _, ht1⟩ := exchange_answered writeValue WriteRegister
    [0x63, 0x3D, 0x07] s r1 _ (by decide) hr1 hl hi
  obtain ⟨s2, h2, hl2, hi2, ht2⟩ :=
    sendData_step_answered writeValue data false s1 r2 _ hr2 hl1 hi1
  obtain ⟨s3, h3, hl3, hi3, _, ht3⟩ := exchange_answered writeValue WriteRegister
    [0x63, 0x3D, 0x00] s2 r3 rest (by decide) hr3 hl2 hi2
  refine ⟨s3, ?_, hl3, hi3, by rw [ht3, ht2, ht1]; simp⟩
  unfold send7bit
  rw [h1]
  simp only
  rw [h2]
  simp only
  rw [h3]

/-- C13: when every exchange of `isGen1A` is answered (replies `h1`, `h2` to
the two commands of `halt`, `w1`, `u1`, `w2` to the three commands of the
7-bit unlock1 exchange, `u2` to the unlock2 command 0x43), `isGen1A` returns
true if and only if the unlock1 reply has exactly 2 bytes with the second
equal to 0x0A and the unlock2 reply has exactly 2 bytes with the second
equal to 0x0A.  When the unlock1 reply is not of that form, the result is
false and the last frame transmitted is the register write that ends the
unlock1 exchange: unlock2 is not sent. -/
theorem isGen1A_classification (writeValue : List Nat → Bool) (s : Session)
    (h1 h2 w1 u1 w2 u2 : Reply) (rest : List (List (List Nat)))
    (hwf : ∀ r ∈ [h1, h2, w1, u1, w2, u2], r.wellFormed)
    (hl : s.pn532Responses = [])
    (hi : s.incoming = h1.script WriteRegister ++ (h2.script InCommunicateThru ++
      (w1.script WriteRegister ++ (u1.script InCommunicateThru ++ (w2.script WriteRegister ++
      ([] :: (u2.script InCommunicateThru ++ ([] :: rest)))))))) :
    ∃ s2, isGen1A writeValue s =
        some (decide ((u1.payload.length = 2 ∧ u1.payload[1]? = some 0x0A) ∧
          (u2.payload.length = 2 ∧ u2.payload[1]? = some 0x0A)), s2) ∧
      (¬ (u1.payload.length = 2 ∧ u1.payload[1]? = some 0x0A) →
        s2.transmitted = s.transmitted ++
          [frameOf WriteRegister [0x63, 0x02, 0x00, 0x63, 0x03, 0x00],
           frameOf InCommunicateThru [0x50, 0x00],
           frameOf WriteRegister [0x63, 0x3D, 0x07], frameOf InCommunicateThru [0x40],
           frameOf WriteRegister [0x63, 0x3D, 0x00]]) ∧
      ((u1.payload.length = 2 ∧ u1.payload[1]? = some 0x0A) →
        s2.transmitted = s.transmitted ++
          [frameOf WriteRegister [0x63, 0x02, 0x00, 0x63, 0x03, 0x00],
           frameOf InCommunicateThru [0x50, 0x00],
           frameOf WriteRegister [0x63, 0x3D, 0x07], frameOf InCommunicateThru [0x40],
           frameOf WriteRegister [0x63, 0x3D, 0x00], frameOf InCommunicateThru [0x43]]) := by
  obtain ⟨s1, e1, hl1, hi1, ht1⟩ := halt_step_answered writeValue s h1 h2 _
    (hwf h1 (by simp)) (hwf h2 (by simp)) hl hi
  obtain ⟨s2, e2, hl2, hi2, ht2⟩ := send7bit_step_answered writeValue [0x40] s1 w1 u1 w2 _
    (hwf w1 (by simp)) (hwf u1 (by simp)) (hwf w2 (by simp)) hl1 hi1
  by_cases hu1 : u1.payload.length = 2 ∧ u1.payload[1]? = some 0x0A
  · obtain ⟨s3, e3, hl3, hi3, _, ht3⟩ := pause_quiet 10 s2 _ hi2
    obtain ⟨s4, e4, hl4, hi4, ht4⟩ := sendData_step_answered writeValue [0x43] false s3 u2 _
      (hwf u2 (by simp)) (hl3.trans hl2) hi3
    have htx : s4.transmitted = s.transmitted ++
        [frameOf WriteRegister [0x63, 0x02, 0x00, 0x63, 0x03, 0x00],
         frameOf InCommunicateThru [0x50, 0x00],
         frameOf WriteRegister [0x63, 0x3D, 0x07], frameOf InCommunicateThru [0x40],
         frameOf WriteRegister [0x63, 0x3D, 0x00], frameOf InCommunicateThru [0x43]] := by
      rw [ht4, ht3, ht2, ht1]; simp
    by_cases hu2 : u2.payload.length = 2 ∧ u2.payload[1]? = some 0x0A
    · obtain ⟨s5, e5, _, _, _, ht5⟩ := pause_quiet 10 s4 rest hi4
      refine ⟨s5, ?_, fun h => absurd hu1 h, fun _ => by rw [ht5, htx]⟩
      unfold isGen1A
      rw [e1]
      simp only
      rw [e2]
      simp only
      rw [if_pos hu1, e3]
      simp only
      rw [e4]
      simp only
      rw [if_pos hu2, e5, decide_eq_true (And.intro hu1 hu2)]
    · refine ⟨s4, ?_, fun h => absurd hu1 h, fun _ => htx⟩
      unfold isGen1A
      rw [e1]
      simp only
      rw [e2]
      simp only
      rw [if_pos hu1, e3]
      simp only
      rw [e4]
      simp only
      rw [if_neg hu2, decide_eq_false (fun h => hu2 h.2)]
  · refine ⟨s2, ?_, fun _ => by rw [ht2, ht1]; simp, fun h => absurd h hu1⟩
    unfold isGen1A
    rw [e1]
    simp only
    rw [e2]
    simp only
    rw [if_neg hu1, decide_eq_false (fun h => hu1 h.1)]

/-- Witness of C13: replies `00 0A` then `00 0A` give true; the unlock1 reply
`00 00` gives false, and the five frames transmitted end with the register
write that closes the unlock1 exchange. -/
theorem isGen1A_classification_witness :
    (∃ s2, isGen1A (fun _ => true)
        { freshSession with incoming := gen1aTraffic [0x00, 0x0A] [0x00, 0x0A] } =
          some (true, s2)) ∧
    (∃ s2, isGen1A (fun _ => true)
        { freshSession with incoming := gen1aTraffic [0x00, 0x00] [0x00, 0x0A] } =
          some (false, s2) ∧
      s2.transmitted =
        [frameOf WriteRegister [0x63, 0x02, 0x00, 0x63, 0x03, 0x00],
         frameOf InCommunicateThru [0x50, 0x00],
         frameOf WriteRegister [0x63, 0x3D, 0x07], frameOf InCommunicateThru [0x40],
         frameOf WriteRegister [0x63, 0x3D, 0x00]]) := by
  constructor
  · obtain ⟨s2, h, _, _⟩ := isGen1A_classification (fun _ => true)
      { freshSession with incoming := gen1aTraffic [0x00, 0x0A] [0x00, 0x0A] }
      (quickReply []) (quickReply [0x00]) (quickReply []) (quickReply [0x00, 0x0A])
      (quickReply []) (quickReply [0x00, 0x0A]) [] (by decide) rfl rfl
    exact ⟨s2, h⟩
  · obtain ⟨s2, h, ht, _⟩ := isGen1A_classification (fun _ => true)
      { freshSession with incoming := gen1aTraffic [0x00, 0x00] [0x00, 0x0A] }
      (quickReply []) (quickReply [0x00]) (quickReply []) (quickReply [0x00, 0x00])
      (quickReply []) (quickReply [0x00, 0x0A]) [] (by decide) rfl rfl
    exact ⟨s2, h, ht (by decide)⟩

/-! ## Hex strings and the ISO14443A scan: C16, C17 -/

set_option maxRecDepth 100000 in
/-- One byte as `bytes2HexString` and `parseHf14aScan` write it: the
padding `"0"` below 0x10, the Arduino digits, made uppercase. -/
theorem hexByte_data : ∀ b < 256,
    ((if b < 0x10 then "0" else "") ++ hexString b).data.map Char.toUpper =
      [upperHexDigit (b / 16), upperHexDigit (b % 16)] := by
  decide

theorem uidHexLoop_data : ∀ (bytes : List Nat) (hex : String), (∀ b ∈ bytes, b < 256) →
    (toUpperCase (uidHexLoop bytes hex)).data =
      hex.data.map Char.toUpper ++ hexRendering bytes := by
  intro bytes
  induction bytes with
  | nil => intro hex _; simp [uidHexLoop, toUpperCase, hexRendering]
  | cons b rest ih =>
    intro hex hb
    unfold uidHexLoop
    simp only
    rw [ih _ (fun x hx => hb x (List.mem_cons_of_mem _ hx))]
    have h := hexByte_data b (hb b (List.mem_cons_self _ _))
    simp only [String.data_append, List.map_append, List.append_assoc] at h ⊢
    rw [← List.append_assoc (List.map Char.toUpper (if b < 16 then "0" else "").data), h]
    simp only [hexRendering, List.cons_append, List.nil_append]

theorem uidHexLoop_rendering (bytes : List Nat) (hb : ∀ b ∈ bytes, b < 256) :
    toUpperCase (uidHexLoop bytes "") = String.mk (hexRendering bytes) := by
  have h := uidHexLoop_data bytes "" hb
  simp only [List.map_nil, List.nil_append, show ("" : String).data = [] from rfl] at h
  rw [← h]

theorem bytes2HexLoop_inbounds (data : List Nat) : ∀ (n i : Nat) (hex : String),
    i + n ≤ data.length →
    bytes2HexLoop data n i hex = some (uidHexLoop ((data.drop i).take n) hex) := by
  intro n
  induction n with
  | zero => intro i hex _; simp [bytes2HexLoop, uidHexLoop]
  | succ n ih =>
    intro i hex h
    have hi : i < data.length := by omega
    rw [bytes2HexLoop, List.getElem?_eq_getElem hi]
    simp only
    rw [ih (i + 1) _ (by omega), List.drop_eq_getElem_cons hi]
    simp only [List.take_succ_cons, uidHexLoop]

theorem bytes2HexString_inbounds (data : List Nat) (n : Nat) (h : n ≤ data.length) :
    bytes2HexString data n = some (toUpperCase (uidHexLoop (data.take n) "")) := by
  unfold bytes2HexString
  rw [bytes2HexLoop_inbounds data n 0 "" (by omega)]
  simp

theorem hexRendering_length (bytes : List Nat) : (hexRendering bytes).length = 2 * bytes.length := by
  induction bytes with
  | nil => rfl
  | cons b rest ih => simp only [hexRendering, List.length_cons, ih]; omega

/-- The record `parseHf14aScan` returns when the payload holds the six header
bytes and the `data[5]` UID bytes. -/
theorem parseHf14aScan_inbounds (d : List Nat) (dataSize d2 d3 sak n : Nat)
    (h2 : d[2]? = some d2) (h3 : d[3]? = some d3) (h4 : d[4]? = some sak)
    (h5 : d[5]? = some n) (hlen : 6 + n ≤ d.length) :
    parseHf14aScan d dataSize =
      some { atqa := [d2, d3], sak := sak, uidSize := n, uid := (d.drop 6).take n,
             uid_hex := toUpperCase (uidHexLoop ((d.drop 6).take n) ""),
             sak_hex := toUpperCase (uidHexLoop [sak] ""),
             atqa_hex := toUpperCase (uidHexLoop [d2, d3] ""), type := getTagType sak } := by
  unfold parseHf14aScan
  rw [h2, h3, h4, h5]
  simp only
  rw [if_neg (by omega), bytes2HexString_inbounds [d2, d3] 2 (by simp),
    bytes2HexString_inbounds [sak] 1 (by simp)]
  rfl

/-- C17: for every response payload `d` (of bytes) with `n = d[5]` and at
least `6 + n` bytes, `parseHf14aScan` returns atqa = `[d[2], d[3]]`,
sak = `d[4]`, uid = `d[6 .. 6+n)`, uid_hex = the uppercase hexadecimal
rendering of uid with two digits per byte (`2n` characters), and a type
determined by sak alone: 0x09 gives "MIFARE Mini", 0x08 or 0x88 "MIFARE 1K",
0x18 "MIFARE 4K", 0x00 "MIFARE Ultralight", any other value "Unknown". -/
theorem parseHf14aScan_fields (d : List Nat) (dataSize n : Nat)
    (hb : ∀ b ∈ d, b < 256) (h5 : d[5]? = some n) (hlen : 6 + n ≤ d.length) :
    ∃ info, parseHf14aScan d dataSize = some info ∧
      info.atqa.map some = [d[2]?, d[3]?] ∧ some info.sak = d[4]? ∧
      info.uid = (d.drop 6).take n ∧ info.uid.length = n ∧
      info.uid_hex = String.mk (hexRendering info.uid) ∧ info.uid_hex.length = 2 * n ∧
      (info.sak = 0x09 → info.type = "MIFARE Mini") ∧
      (info.sak = 0x08 ∨ info.sak = 0x88 → info.type = "MIFARE 1K") ∧
      (info.sak = 0x18 → info.type = "MIFARE 4K") ∧
      (info.sak = 0x00 → info.type = "MIFARE Ultralight") ∧
      (info.sak ≠ 0x09 → info.sak ≠ 0x08 → info.sak ≠ 0x88 → info.sak ≠ 0x18 →
        info.sak ≠ 0x00 → info.type = "Unknown") := by
  have l2 : 2 < d.length := by omega
  have l3 : 3 < d.length := by omega
  have l4 : 4 < d.length := by omega
  have h2 : d[2]? = some d[2] := List.getElem?_eq_getElem l2
  have h3 : d[3]? = some d[3] := List.getElem?_eq_getElem l3
  have h4 : d[4]? = some d[4] := List.getElem?_eq_getElem l4
  have huid : ∀ b ∈ (d.drop 6).take n, b < 256 :=
    fun b hx => hb b (List.mem_of_mem_drop (List.mem_of_mem_take hx))
  have hulen : ((d.drop 6).take n).length = n := by
    rw [List.length_take, List.length_drop]; omega
  refine ⟨_, parseHf14aScan_inbounds d dataSize _ _ _ n h2 h3 h4 h5 hlen, ?_, ?_, rfl, hulen,
    uidHexLoop_rendering _ huid, ?_, ?_, ?_, ?_, ?_, ?_⟩
  · simp only [List.map_cons, List.map_nil, h2, h3]
  · exact h4.symm
  · rw [uidHexLoop_rendering _ huid]
    show (hexRendering ((d.drop 6).take n)).length = 2 * n
    rw [hexRendering_length, hulen]
  · intro h; simp only at h; simp [getTagType, h]
  · intro h; simp only at h; rcases h with h | h <;> simp [getTagType, h]
  · intro h; simp only at h; simp [getTagType, h]
  · intro h; simp only at h; simp [getTagType, h]
  · intro a b c e f; simp only at a b c e f; simp [getTagType, a, b, c, e, f]

/-- Witness of C17: the scan payload of a MIFARE 1K tag with a 4-byte UID. -/
theorem parseHf14aScan_fields_witness :
    ∃ info, parseHf14aScan mifare1kScan 10 = some info ∧
      info.atqa.map some = [mifare1kScan[2]?, mifare1kScan[3]?] ∧
      some info.sak = mifare1kScan[4]? ∧
      info.uid = (mifare1kScan.drop 6).take 4 ∧ info.uid.length = 4 ∧
      info.uid_hex = String.mk (hexRendering info.uid) ∧ info.uid_hex.length = 2 * 4 ∧
      (info.sak = 0x09 → info.type = "MIFARE Mini") ∧
      (info.sak = 0x08 ∨ info.sak = 0x88 → info.type = "MIFARE 1K") ∧
      (info.sak = 0x18 → info.type = "MIFARE 4K") ∧
      (info.sak = 0x00 → info.type = "MIFARE Ultralight") ∧
      (info.sak ≠ 0x09 → info.sak ≠ 0x08 → info.sak ≠ 0x88 → info.sak ≠ 0x18 →
        info.sak ≠ 0x00 → info.type = "Unknown") :=
  parseHf14aScan_fields mifare1kScan 10 4 (by decide) (by decide) (by decide)

theorem hf14aScan_step_answered (writeValue : List Nat → Bool) (s : Session) (r : Reply)
    (rest : List (List (List Nat))) (info : Iso14aTagInfo)
    (hwv : writeValue (frameOf InListPassiveTarget [0x01, 0x00]) = true)
    (hr : r.wellFormed) (hl : s.pn532Responses = [])
    (hi : s.incoming = r.script InListPassiveTarget ++ rest)
    (hparse : parseHf14aScan r.payload r.payload.length = some info) :
    ∃ s2, hf14aScan writeValue s = some (info, s2) ∧ s2.pn532Responses = [] ∧
      s2.incoming = rest ∧
      s2.transmitted = s.transmitted ++ [frameOf InListPassiveTarget [0x01, 0x00]] := by
  obtain ⟨s1, h1, hl1, hi1, hc1, ht1⟩ := exchange_answered writeValue InListPassiveTarget
    [0x01, 0x00] s r rest (by decide) hr hl hi
  refine ⟨s1, ?_, hl1, hi1, ht1⟩
  unfold hf14aScan
  rw [h1, hwv]
  simp only
  rw [hc1]
  simp only [Reply.response, hparse]

set_option maxRecDepth 100000 in
/-- C16, counterexample: the exchange of `hf14aScan` is answered with the
payload `02 00 00 00 04 04 11 22 33 44 08 00`.  `parseHf14aScan` takes the
ATQA from offsets 2-3 and the SAK from offset 4, so the result has ATQA hex
"0000", SAK hex "04" and type "Unknown", not "0004", "08" and "MIFARE 1K". -/
theorem hf14aScan_scenario_bytes_parse_differently :
    (hf14aScan (fun _ => true)
        { freshSession with
          incoming := (quickReply scenarioScan).script InListPassiveTarget }).map Prod.fst =
      some { atqa := [0x00, 0x00], sak := 0x04, uidSize := 4, uid := [0x11, 0x22, 0x33, 0x44],
             uid_hex := "11223344", sak_hex := "04", atqa_hex := "0000", type := "Unknown" } := by
  decide

set_option maxRecDepth 100000 in
/-- C16, amended: when the `InListPassiveTarget` exchange of `hf14aScan`
succeeds with the response payload `01 01 00 04 08 04 11 22 33 44` (ATQA at
offsets 2-3, SAK at offset 4, UID length at offset 5, UID from offset 6),
`hf14aScan` returns a tag info with ATQA hex "0004", SAK hex "08", UID hex
"11223344" and type "MIFARE 1K"; with the payload
`02 00 00 00 04 04 11 22 33 44 08 00` it returns ATQA hex "0000", SAK hex
"04", UID hex "11223344" and type "Unknown". -/
theorem hf14aScan_scenario (writeValue : List Nat → Bool) (s : Session) (r : Reply)
    (rest : List (List (List Nat)))
    (hwv : writeValue (frameOf InListPassiveTarget [0x01, 0x00]) = true)
    (hr : r.wellFormed) (hl : s.pn532Responses = [])
    (hi : s.incoming = r.script InListPassiveTarget ++ rest) :
    (r.payload = mifare1kScan →
      ∃ info s2, hf14aScan writeValue s = some (info, s2) ∧ info.atqa_hex = "0004" ∧
        info.sak_hex = "08" ∧ info.uid_hex = "11223344" ∧ info.type = "MIFARE 1K") ∧
    (r.payload = scenarioScan →
      ∃ info s2, hf14aScan writeValue s = some (info, s2) ∧ info.atqa_hex = "0000" ∧
        info.sak_hex = "04" ∧ info.uid_hex = "11223344" ∧ info.type = "Unknown") := by
  constructor
  · intro hp
    obtain ⟨s2, h, _⟩ := hf14aScan_step_answered writeValue s r rest
      { atqa := [0x00, 0x04], sak := 0x08, uidSize := 4, uid := [0x11, 0x22, 0x33, 0x44],
        uid_hex := "11223344", sak_hex := "08", atqa_hex := "0004", type := "MIFARE 1K" }
      hwv hr hl hi (by rw [hp]; decide)
    exact ⟨_, s2, h, rfl, rfl, rfl, rfl⟩
  · intro hp
    obtain ⟨s2, h, _⟩ := hf14aScan_step_answered writeValue s r rest
      { atqa := [0x00, 0x00], sak := 0x04, uidSize := 4, uid := [0x11, 0x22, 0x33, 0x44],
        uid_hex := "11223344", sak_hex := "04", atqa_hex := "0000", type := "Unknown" }
      hwv hr hl hi (by rw [hp]; decide)
    exact ⟨_, s2, h, rfl, rfl, rfl, rfl⟩

/-- Witness of the amended C16: both payloads, each answered at once after the
ACK bytes. -/
theorem hf14aScan_scenario_witness :
    (∃ info s2, hf14aScan (fun _ => true)
        { freshSession with
          incoming := (quickReply mifare1kScan).script InListPassiveTarget } = some (info, s2) ∧
      info.atqa_hex = "0004" ∧ info.sak_hex = "08" ∧ info.uid_hex = "11223344" ∧
      info.type = "MIFARE 1K") ∧
    (∃ info s2, hf14aScan (fun _ => true)
        { freshSession with
          incoming := (quickReply scenarioScan).script InListPassiveTarget } = some (info, s2) ∧
      info.atqa_hex = "0000" ∧ info.sak_hex = "04" ∧ info.uid_hex = "11223344" ∧
      info.type = "Unknown") :=
  ⟨(hf14aScan_scenario (fun _ => true)
      { freshSession with incoming := (quickReply mifare1kScan).script InListPassiveTarget }
      (quickReply mifare1kScan) [] rfl (by decide) rfl (by simp)).1 rfl,
   (hf14aScan_scenario (fun _ => true)
      { freshSession with incoming := (quickReply scenarioScan).script InListPassiveTarget }
      (quickReply scenarioScan) [] rfl (by decide) rfl (by simp)).2 rfl⟩

/-! ## ISO14443A select: C14, C15 -/

/-- C14: for a scanned tag whose UID has 4 bytes (`scan` is the reply to
`InListPassiveTarget`, with UID length 4 at offset 5) and whose CL1
anti-collision reply `ac` has status 0x00, with every exchange answered, the
result of `selectTag` is decided by the CL1 select reply `sel`: it is true
exactly when `sel` has more than one byte and first byte 0x00.  So the reply
`00 08` gives true, the reply `01` and every reply whose first byte is not
0x00 give false, and the eight frames transmitted end with the CL1 select
command: no CL2 command is sent. -/
theorem selectTag_four_byte_uid (writeValue : List Nat → Bool) (s : Session)
    (scan h1 h2 w1 wupa w2 ac sel : Reply) (rest : List (List (List Nat)))
    (hwv : writeValue (frameOf InListPassiveTarget [0x01, 0x00]) = true)
    (hwf : ∀ r ∈ [scan, h1, h2, w1, wupa, w2, ac, sel], r.wellFormed)
    (hl : s.pn532Responses = [])
    (hi : s.incoming = scan.script InListPassiveTarget ++ (h1.script WriteRegister ++
      (h2.script InCommunicateThru ++ (w1.script WriteRegister ++
      (wupa.script InCommunicateThru ++ (w2.script WriteRegister ++
      (ac.script InCommunicateThru ++ (sel.script InCommunicateThru ++ rest))))))))
    (huid : scan.payload[5]? = some 4) (hscan : 10 ≤ scan.payload.length)
    (hac : ac.payload[0]? = some 0x00) :
    ∃ s2, selectTag writeValue s =
        some (decide (sel.payload.length > 1 ∧ sel.payload[0]? = some 0x00), s2) ∧
      (sel.payload = [0x00, 0x08] → selectTag writeValue s = some (true, s2)) ∧
      (sel.payload = [0x01] → selectTag writeValue s = some (false, s2)) ∧
      (∀ status, sel.payload[0]? = some status → status ≠ 0x00 →
        selectTag writeValue s = some (false, s2)) ∧
      s2.transmitted = s.transmitted ++
        [frameOf InListPassiveTarget [0x01, 0x00],
         frameOf WriteRegister [0x63, 0x02, 0x00, 0x63, 0x03, 0x00],
         frameOf InCommunicateThru [0x50, 0x00],
         frameOf WriteRegister [0x63, 0x3D, 0x07], frameOf InCommunicateThru [0x52],
         frameOf WriteRegister [0x63, 0x3D, 0x00], frameOf InCommunicateThru [0x93, 0x20],
         frameOf InCommunicateThru (appendCrcA ([0x93, 0x70] ++ ac.payload.drop 1))] ∧
      s2.incoming = rest := by
  have l2 : 2 < scan.payload.length := by omega
  have l3 : 3 < scan.payload.length := by omega
  have l4 : 4 < scan.payload.length := by omega
  have hparse := parseHf14aScan_inbounds scan.payload scan.payload.length _ _ _ 4
    (List.getElem?_eq_getElem l2) (List.getElem?_eq_getElem l3) (List.getElem?_eq_getElem l4)
    huid (by omega)
  have hulen : ((scan.payload.drop 6).take 4).length = 4 := by
    rw [List.length_take, List.length_drop]; omega
  obtain ⟨s1, e1, hl1, hi1, ht1⟩ := hf14aScan_step_answered writeValue s scan _ _ hwv
    (hwf scan (by simp)) hl hi hparse
  obtain ⟨s2, e2, hl2, hi2, ht2⟩ := halt_step_answered writeValue s1 h1 h2 _
    (hwf h1 (by simp)) (hwf h2 (by simp)) hl1 hi1
  obtain ⟨s3, e3, hl3, hi3, ht3⟩ := send7bit_step_answered writeValue [0x52] s2 w1 wupa w2 _
    (hwf w1 (by simp)) (hwf wupa (by simp)) (hwf w2 (by simp)) hl2 hi2
  obtain ⟨s4, e4, hl4, hi4, ht4⟩ := sendData_step_answered writeValue [0x93, 0x20] false s3 ac _
    (hwf ac (by simp)) hl3 hi3
  obtain ⟨s5, e5, hl5, hi5, ht5⟩ := sendData_step_answered writeValue
    ([0x93, 0x70] ++ ac.payload.drop 1) true s4 sel rest (hwf sel (by simp)) hl4 hi4
  have hne : ((scan.payload.drop 6).take 4).isEmpty = false := by
    cases hx : (scan.payload.drop 6).take 4 with
    | nil => rw [hx] at hulen; simp at hulen
    | cons a t => rfl
  have hres : selectTag writeValue s =
      some (decide (sel.payload.length > 1 ∧ sel.payload[0]? = some 0x00), s5) := by
    unfold selectTag
    rw [e1]
    simp only
    rw [e2]
    simp only [hne, Bool.false_eq_true, if_false]
    rw [e3]
    simp only
    rw [e4]
    simp only [hac]
    rw [if_neg (by simp), e5]
    simp only [hulen, if_true]
  refine ⟨s5, hres, ?_, ?_, ?_, ?_, hi5⟩
  · intro hp; rw [hres, hp]; rfl
  · intro hp; rw [hres, hp]; rfl
  · intro status hst hne0
    rw [hres, hst, decide_eq_false]
    intro h
    exact hne0 (by simpa using h.2)
  · rw [ht5, ht4, ht3, ht2, ht1]
    simp

/-- Witness of C14: a MIFARE 1K tag with UID `11 22 33 44`; the CL1 select
reply `00 08` gives true, the reply `01` gives false. -/
theorem selectTag_four_byte_uid_witness :
    (∃ s2, selectTag (fun _ => true)
        { freshSession with incoming := singleSizeTraffic [0x00, 0x08] } = some (true, s2)) ∧
    (∃ s2, selectTag (fun _ => true)
        { freshSession with incoming := singleSizeTraffic [0x01] } = some (false, s2) ∧
      s2.transmitted.length = 8) := by
  constructor
  · obtain ⟨s2, _, h, _⟩ := selectTag_four_byte_uid (fun _ => true)
      { freshSession with incoming := singleSizeTraffic [0x00, 0x08] }
      (quickReply mifare1kScan) (quickReply []) (quickReply [0x00]) (quickReply [])
      (quickReply [0x00, 0x04, 0x00]) (quickReply [])
      (quickReply [0x00, 0x11, 0x22, 0x33, 0x44, 0x44]) (quickReply [0x00, 0x08]) []
      rfl (by decide) rfl rfl (by decide) (by decide) (by decide)
    exact ⟨s2, h rfl⟩
  · obtain ⟨s2, _, _, h, _, ht, _⟩ := selectTag_four_byte_uid (fun _ => true)
      { freshSession with incoming := singleSizeTraffic [0x01] }
      (quickReply mifare1kScan) (quickReply []) (quickReply [0x00]) (quickReply [])
      (quickReply [0x00, 0x04, 0x00]) (quickReply [])
      (quickReply [0x00, 0x11, 0x22, 0x33, 0x44, 0x44]) (quickReply [0x01]) []
      rfl (by decide) rfl rfl (by decide) (by decide) (by decide)
    exact ⟨s2, h rfl, by rw [ht]; rfl⟩

set_option maxRecDepth 100000 in
/-- C15, evaluation at the failing input: a tag with the 7-byte UID
`04 11 22 33 44 55 66`; every exchange is answered, the CL1 anti-collision
reply has status 0x00, the CL1 select reply is `01` (status other than
0x00), the CL2 anti-collision and select replies have status 0x00.  The
7-byte branch of `selectTag` never looks at the CL1 select reply: the CL2
commands are sent and the result is true. -/
theorem selectTag_ignores_cl1_select_status :
    (selectTag (fun _ => true) { freshSession with incoming := cascadeTraffic [0x01] }).map
      (fun r => (r.1, r.2.transmitted.drop 6)) =
      some (true,
        [frameOf InCommunicateThru [0x93, 0x20],
         frameOf InCommunicateThru (appendCrcA [0x93, 0x70, 0x88, 0x04, 0x11, 0x22, 0xBF]),
         frameOf InCommunicateThru [0x95, 0x20],
         frameOf InCommunicateThru (appendCrcA [0x95, 0x70, 0x33, 0x44, 0x55, 0x66, 0x00])]) := by
  decide

/-! ## ISO15693 and LF parsing: C18, C19, C20 -/

theorem length_ten {r : List Nat} (h : r.length = 10) :
    ∃ a0 a1 a2 a3 a4 a5 a6 a7 a8 a9, r = [a0, a1, a2, a3, a4, a5, a6, a7, a8, a9] := by
  match r, h with
  | [a0, a1, a2, a3, a4, a5, a6, a7, a8, a9], _ =>
    exact ⟨a0, a1, a2, a3, a4, a5, a6, a7, a8, a9, rfl⟩

/-- One record of an ISO15693 inventory as the loop of `parseHf15Scan` stores
it: the eight UID bytes in reverse order, and their hex string. -/
theorem parseHf15ScanLoop_records : ∀ (recs : List (List Nat)) (front : List Nat)
    (info : Iso15TagInfo) (fuel dataSize : Nat),
    (∀ r ∈ recs, r.length = 10) → recs.length ≤ fuel →
    dataSize = front.length + 10 * recs.length →
    parseHf15ScanLoop (front ++ recs.flatten) dataSize fuel front.length info =
      some (recs.foldl (fun acc r =>
        { acc with uid := (r.drop 2).reverse,
                   uid_hex := toUpperCase (uidHexLoop (r.drop 2).reverse "") }) info) := by
  intro recs
  induction recs with
  | nil =>
    intro front info fuel dataSize _ _ hd
    cases fuel <;> simp [parseHf15ScanLoop, hd]
  | cons r rs ih =>
    intro front info fuel dataSize hr hf hd
    obtain ⟨f, rfl⟩ : ∃ f, fuel = f + 1 := ⟨fuel - 1, by simp at hf; omega⟩
    obtain ⟨a0, a1, a2, a3, a4, a5, a6, a7, a8, a9, rfl⟩ := length_ten (hr r (List.mem_cons_self _ _))
    have hrs : ∀ x ∈ rs, x.length = 10 := fun x hx => hr x (List.mem_cons_of_mem _ hx)
    have hstep := ih (front ++ [a0, a1, a2, a3, a4, a5, a6, a7, a8, a9])
      { info with uid := [a9, a8, a7, a6, a5, a4, a3, a2],
                  uid_hex := toUpperCase (uidHexLoop [a9, a8, a7, a6, a5, a4, a3, a2] "") }
      f dataSize hrs (by simp at hf; omega) (by simp at hd ⊢; omega)
    simp only [List.length_append, List.length_cons, List.length_nil, List.append_assoc] at hstep
    simp only [List.length_cons] at hd
    unfold parseHf15ScanLoop
    rw [if_pos (by omega)]
    have e0 : (front ++ ([a0, a1, a2, a3, a4, a5, a6, a7, a8, a9] :: rs).flatten)[front.length]? =
        some a0 := by
      rw [List.getElem?_append_right (le_refl _)]; simp
    have e1 : (front ++ ([a0, a1, a2, a3, a4, a5, a6, a7, a8, a9] :: rs).flatten)[front.length + 1]? =
        some a1 := by
      rw [List.getElem?_append_right (by omega)]; simp
    have e2 : ((front ++ ([a0, a1, a2, a3, a4, a5, a6, a7, a8, a9] :: rs).flatten).drop
        (front.length + 2)).take 8 = [a2, a3, a4, a5, a6, a7, a8, a9] := by
      rw [List.drop_append]; simp
    rw [e0, e1]
    simp only [e2]
    rw [if_neg (by simp; omega), bytes2HexString_inbounds _ 8 (by simp)]
    simp only [List.reverse_cons, List.reverse_nil, List.nil_append, List.cons_append,
      List.take, List.foldl_cons, List.drop_succ_cons, List.drop_zero]
    rw [← hstep]
    simp [Nat.add_assoc]

theorem flatten_length_ten : ∀ (recs : List (List Nat)), (∀ r ∈ recs, r.length = 10) →
    recs.flatten.length = 10 * recs.length := by
  intro recs
  induction recs with
  | nil => intro _; rfl
  | cons r rs ih =>
    intro h
    rw [List.flatten_cons, List.length_append, h r (List.mem_cons_self _ _),
      ih (fun x hx => h x (List.mem_cons_of_mem _ hx)), List.length_cons]
    omega

/-- C18: for every scan payload made of `k ≥ 1` complete 10-byte records (tag
type, tag number, 8 UID bytes; `front` holds the first `k - 1` records and
`last` the last one), `parseHf15Scan` returns a result, whose UID is the 8
UID bytes of the last record in reverse of wire order and whose uid_hex is
the 16-character uppercase hex rendering of that UID; for every payload
shorter than 10 bytes it returns an info with empty UID. -/
theorem parseHf15Scan_last_record (front : List (List Nat)) (last : List Nat)
    (hrec : ∀ r ∈ front ++ [last], r.length = 10) (hb : ∀ b ∈ last, b < 256) :
    (∃ info, parseHf15Scan (front ++ [last]).flatten (front ++ [last]).flatten.length =
        some info ∧
      info.uid = (last.drop 2).reverse ∧ info.uid.length = 8 ∧
      info.uid_hex = String.mk (hexRendering info.uid) ∧ info.uid_hex.length = 16) ∧
    (∀ d : List Nat, d.length < 10 →
      ∃ info, parseHf15Scan d d.length = some info ∧ info.uid = []) := by
  constructor
  · have hlen := flatten_length_ten (front ++ [last]) hrec
    have hk : (front ++ [last]).length = front.length + 1 := by simp
    have hloop := parseHf15ScanLoop_records (front ++ [last]) [] Iso15TagInfo.uninit
      (front ++ [last]).flatten.length (front ++ [last]).flatten.length hrec
      (by rw [hlen]; omega) (by rw [hlen]; simp)
    simp only [List.nil_append, List.length_nil, List.foldl_append, List.foldl_cons,
      List.foldl_nil] at hloop
    have hlast : last.length = 10 := hrec last (by simp)
    have hu8 : ((last.drop 2).reverse).length = 8 := by
      rw [List.length_reverse, List.length_drop]; omega
    have hbytes : ∀ b ∈ (last.drop 2).reverse, b < 256 := by
      intro b hx
      exact hb b (List.mem_of_mem_drop (List.mem_reverse.mp hx))
    obtain ⟨info, hinfo, huid, hhex⟩ : ∃ info,
        parseHf15ScanLoop (front ++ [last]).flatten (front ++ [last]).flatten.length
          (front ++ [last]).flatten.length 0 Iso15TagInfo.uninit = some info ∧
        info.uid = (last.drop 2).reverse ∧
        info.uid_hex = toUpperCase (uidHexLoop (last.drop 2).reverse "") :=
      ⟨_, hloop, rfl, rfl⟩
    refine ⟨info, ?_, huid, by rw [huid]; exact hu8, ?_, ?_⟩
    · unfold parseHf15Scan
      rw [if_neg (by rw [hlen]; omega)]
      exact hinfo
    · rw [hhex, huid]
      exact uidHexLoop_rendering _ hbytes
    · rw [hhex, uidHexLoop_rendering _ hbytes]
      show (hexRendering ((last.drop 2).reverse)).length = 16
      rw [hexRendering_length, hu8]
  · intro d hd
    refine ⟨Iso15TagInfo.uninit, ?_, rfl⟩
    unfold parseHf15Scan
    rw [if_pos hd]

/-- Witness of C18: an inventory of two records; the UID of the second one is
returned, reversed. -/
theorem parseHf15Scan_last_record_witness :
    (∃ info, parseHf15Scan
        ([[0x01, 0x01, 0x01, 0x02, 0x03, 0x04, 0x05, 0x06, 0x07, 0xE0]] ++
          [[0x01, 0x02, 0x11, 0x12, 0x13, 0x14, 0x15, 0x16, 0x07, 0xE0]]).flatten
        ([[0x01, 0x01, 0x01, 0x02, 0x03, 0x04, 0x05, 0x06, 0x07, 0xE0]] ++
          [[0x01, 0x02, 0x11, 0x12, 0x13, 0x14, 0x15, 0x16, 0x07, 0xE0]]).flatten.length =
        some info ∧
      info.uid = ([0x01, 0x02, 0x11, 0x12, 0x13, 0x14, 0x15, 0x16, 0x07, 0xE0].drop 2).reverse ∧
      info.uid.length = 8 ∧
      info.uid_hex = String.mk (hexRendering info.uid) ∧ info.uid_hex.length = 16) ∧
    (∀ d : List Nat, d.length < 10 →
      ∃ info, parseHf15Scan d d.length = some info ∧ info.uid = []) :=
  parseHf15Scan_last_record [[0x01, 0x01, 0x01, 0x02, 0x03, 0x04, 0x05, 0x06, 0x07, 0xE0]]
    [0x01, 0x02, 0x11, 0x12, 0x13, 0x14, 0x15, 0x16, 0x07, 0xE0] (by decide) (by decide)

set_option maxRecDepth 100000 in
/-- C19, evaluation at the failing input: in the 16-byte response
`systemInfoReply` the byte at offset 13 is 0xFF; `blockSize` is a `uint8_t`,
so `data[13] + 1` is stored as 0 and not as 0xFF + 1 = 256. -/
theorem parseHf15TagInfo_blockSize_wraps :
    systemInfoReply[13]? = some 0xFF ∧
    (parseHf15TagInfo systemInfoReply systemInfoReply.length).map
      (fun info => info.blockSize) = some (some 0) ∧
    (0 : Nat) ≠ 0xFF + 1 := by
  decide

/-- What `parseHf15TagInfo` stores: for every response `d` it fills the info
only when `d` is longer than 15 bytes (otherwise the returned UID is empty
and no field is assigned); when it is, dsfid = `d[11]`, afi = `d[12]`,
blockSize = `(d[13] + 1) mod 256` (the wire value plus one for wire values
up to 254), icRef = `d[15]` and uid = the 8 bytes `d[3 .. 11)` in reverse
order. -/
theorem parseHf15TagInfo_fields (d : List Nat) :
    (d.length ≤ 15 →
      parseHf15TagInfo d d.length = some Iso15TagInfo.uninit ∧ Iso15TagInfo.uninit.uid = []) ∧
    (15 < d.length →
      ∃ info, parseHf15TagInfo d d.length = some info ∧
        info.dsfid = d[11]? ∧ info.afi = d[12]? ∧
        info.blockSize = (d[13]?).map (fun wire => (wire + 1) % 256) ∧
        (∀ wire, d[13]? = some wire → wire ≤ 254 → info.blockSize = some (wire + 1)) ∧
        info.icRef = d[15]? ∧ info.uid = ((d.drop 3).take 8).reverse ∧ info.uid.length = 8) := by
  constructor
  · intro h
    refine ⟨?_, rfl⟩
    unfold parseHf15TagInfo
    rw [if_neg (by omega)]
  · intro h
    have l11 : 11 < d.length := by omega
    have l12 : 12 < d.length := by omega
    have l13 : 13 < d.length := by omega
    have l15 : 15 < d.length := by omega
    have e11 : d[11]? = some d[11] := List.getElem?_eq_getElem l11
    have e12 : d[12]? = some d[12] := List.getElem?_eq_getElem l12
    have e13 : d[13]? = some d[13] := List.getElem?_eq_getElem l13
    have e15 : d[15]? = some d[15] := List.getElem?_eq_getElem l15
    have hu8 : (((d.drop 3).take 8).reverse).length = 8 := by
      rw [List.length_reverse, List.length_take, List.length_drop]; omega
    refine ⟨{ uid := ((d.drop 3).take 8).reverse,
              uid_hex := toUpperCase (uidHexLoop (((d.drop 3).take 8).reverse.take
                ((d.drop 3).take 8).reverse.length) ""),
              dsfid := some d[11], afi := some d[12], icRef := some d[15],
              blockSize := some ((d[13] + 1) % 256) }, ?_, e11.symm, e12.symm, ?_, ?_, e15.symm,
      rfl, hu8⟩
    · unfold parseHf15TagInfo
      rw [if_pos (by omega), e11, e12, e13, e15]
      simp only
      rw [if_neg (by omega), bytes2HexString_inbounds _ _ (le_refl _)]
    · rw [e13]; rfl
    · intro wire hw hle
      rw [e13] at hw
      simp only [Option.some.injEq] at hw
      simp only [hw, Option.some.injEq]
      omega

set_option maxRecDepth 100000 in
/-- An instance of both cases: a 15-byte response leaves the info unassigned;
a 16-byte response with block-size byte 0x03 gives blockSize 4. -/
theorem parseHf15TagInfo_fields_witness :
    (parseHf15TagInfo (List.replicate 15 0x00) 15 = some Iso15TagInfo.uninit ∧
      Iso15TagInfo.uninit.uid = []) ∧
    (∃ info, parseHf15TagInfo
        [0x00, 0x00, 0x00, 0x01, 0x02, 0x03, 0x04, 0x05, 0x06, 0x07, 0xE0, 0xAA, 0xBB, 0x03,
          0x00, 0xCC] 16 = some info ∧
      info.blockSize = some 4 ∧ info.uid = [0xE0, 0x07, 0x06, 0x05, 0x04, 0x03, 0x02, 0x01]) := by
  constructor
  · exact (parseHf15TagInfo_fields (List.replicate 15 0x00)).1 (by decide)
  · obtain ⟨info, h, _, _, _, hbs, _, hu, _⟩ := (parseHf15TagInfo_fields
      [0x00, 0x00, 0x00, 0x01, 0x02, 0x03, 0x04, 0x05, 0x06, 0x07, 0xE0, 0xAA, 0xBB, 0x03,
        0x00, 0xCC]).2 (by decide)
    exact ⟨info, h, hbs 0x03 rfl (by decide), hu⟩

set_option maxRecDepth 100000 in
/-- C20, evaluation at the failing input: the LF record
`01 01 80 00 00 01 23` has the UID bytes `80 00 00 01 23`; the big-endian
value of the first four is 0x80000001 = 2147483649, while `id_dec`, an `int`
assigned `(uid[0] << 24) | ...`, is -2147483647. -/
theorem parseLfScan_negative_id :
    parseLfScan [0x01, 0x01, 0x80, 0x00, 0x00, 0x01, 0x23] 7 =
      some { uid := [0x80, 0x00, 0x00, 0x01, 0x23], uid_hex := "8000000123",
             id_dec := some (-2147483647) } ∧
    ((0x80 * 2 ^ 24 + 0x00 * 2 ^ 16 + 0x00 * 2 ^ 8 + 0x01 : Nat) : Int) = 2147483649 := by
  decide

theorem shift_or_eq_add (u0 u1 u2 u3 : Nat) (h1 : u1 < 256) (h2 : u2 < 256) (h3 : u3 < 256) :
    (u0 <<< 24) ||| (u1 <<< 16) ||| (u2 <<< 8) ||| u3 =
      u0 * 2 ^ 24 + u1 * 2 ^ 16 + u2 * 2 ^ 8 + u3 := by
  have e3 : 2 ^ 8 * u2 ||| u3 = 2 ^ 8 * u2 + u3 :=
    (Nat.mul_add_lt_is_or (by omega) u2).symm
  have e2 : 2 ^ 16 * u1 ||| (2 ^ 8 * u2 + u3) = 2 ^ 16 * u1 + (2 ^ 8 * u2 + u3) :=
    (Nat.mul_add_lt_is_or (by omega) u1).symm
  have e1 : 2 ^ 24 * u0 ||| (2 ^ 16 * u1 + (2 ^ 8 * u2 + u3)) =
      2 ^ 24 * u0 + (2 ^ 16 * u1 + (2 ^ 8 * u2 + u3)) :=
    (Nat.mul_add_lt_is_or (by omega) u0).symm
  rw [Nat.shiftLeft_eq, Nat.shiftLeft_eq, Nat.shiftLeft_eq, Nat.or_assoc, Nat.or_assoc,
    Nat.mul_comm u0, Nat.mul_comm u1, Nat.mul_comm u2, e3, e2, e1]
  omega

/-- The LF identifier the code computes for one complete 7-byte record: the
big-endian value of the first four UID bytes when the first byte is below
0x80, and that value minus 2^32 otherwise. -/
theorem parseLfScan_single_record (tagType tagNum u0 u1 u2 u3 u4 : Nat)
    (hb : ∀ b ∈ [u0, u1, u2, u3, u4], b < 256) :
    parseLfScan [tagType, tagNum, u0, u1, u2, u3, u4] 7 =
      some { uid := [u0, u1, u2, u3, u4],
             uid_hex := String.mk (hexRendering [u0, u1, u2, u3, u4]),
             id_dec := some (if u0 < 0x80
               then ((u0 * 2 ^ 24 + u1 * 2 ^ 16 + u2 * 2 ^ 8 + u3 : Nat) : Int)
               else ((u0 * 2 ^ 24 + u1 * 2 ^ 16 + u2 * 2 ^ 8 + u3 : Nat) : Int) - 4294967296) } := by
  have h0 : u0 < 256 := hb u0 (by simp)
  have h1 : u1 < 256 := hb u1 (by simp)
  have h2 : u2 < 256 := hb u2 (by simp)
  have h3 : u3 < 256 := hb u3 (by simp)
  have hid : toInt32 ((u0 <<< 24) ||| (u1 <<< 16) ||| (u2 <<< 8) ||| u3) =
      if u0 < 0x80 then ((u0 * 2 ^ 24 + u1 * 2 ^ 16 + u2 * 2 ^ 8 + u3 : Nat) : Int)
      else ((u0 * 2 ^ 24 + u1 * 2 ^ 16 + u2 * 2 ^ 8 + u3 : Nat) : Int) - 4294967296 := by
    rw [shift_or_eq_add u0 u1 u2 u3 h1 h2 h3]
    unfold toInt32
    have hlt : u0 * 2 ^ 24 + u1 * 2 ^ 16 + u2 * 2 ^ 8 + u3 < 4294967296 := by omega
    rw [Nat.mod_eq_of_lt hlt]
    by_cases hu : u0 < 0x80
    · rw [if_pos hu, if_pos (by omega)]
    · rw [if_neg hu, if_neg (by omega)]
  have hhex : bytes2HexString [u0, u1, u2, u3, u4] 5 =
      some (String.mk (hexRendering [u0, u1, u2, u3, u4])) := by
    rw [bytes2HexString_inbounds _ 5 (by simp)]
    exact congrArg some (uidHexLoop_rendering [u0, u1, u2, u3, u4] hb)
  unfold parseLfScan
  simp only [parseLfScanLoop, Nat.lt_irrefl, if_false, List.getElem?_cons_zero,
    List.getElem?_cons_succ, Nat.zero_lt_succ, if_true, List.drop_succ_cons, List.drop_zero,
    List.take, Nat.zero_add, Nat.reduceAdd, Nat.reduceLT, hid, hhex]

/-- Witness: the record `01 01 12 34 56 78 9A` has the identifier 0x12345678. -/
theorem parseLfScan_single_record_witness :
    parseLfScan [0x01, 0x01, 0x12, 0x34, 0x56, 0x78, 0x9A] 7 =
      some { uid := [0x12, 0x34, 0x56, 0x78, 0x9A],
             uid_hex := String.mk (hexRendering [0x12, 0x34, 0x56, 0x78, 0x9A]),
             id_dec := some (if 0x12 < 0x80
               then ((0x12 * 2 ^ 24 + 0x34 * 2 ^ 16 + 0x56 * 2 ^ 8 + 0x78 : Nat) : Int)
               else ((0x12 * 2 ^ 24 + 0x34 * 2 ^ 16 + 0x56 * 2 ^ 8 + 0x78 : Nat) : Int) -
                 4294967296) } :=
  parseLfScan_single_record 0x01 0x01 0x12 0x34 0x56 0x78 0x9A (by decide)

/-- Timeout of a send: when no response is pending and nothing arrives,
`writeCommand` returns false 4020 ms after the call (the `delay(10)` after
the write and 401 polls of 10 ms), the frame has been transmitted, and
receive buffer and response list are empty afterwards. -/
theorem writeCommand_times_out (writeValue : List Nat → Bool) (cmd : Nat) (data : List Nat)
    (s : Session) (hl : s.pn532Responses = []) (hi : s.incoming = []) :
    ∃ s2, writeCommand writeValue cmd data s = some (false, s2) ∧
      s2.millis = s.millis + 4020 ∧ s2.pn532bleBuffer = [] ∧ s2.pn532Responses = [] ∧
      s2.cmdResponse = s.cmdResponse ∧
      s2.transmitted = s.transmitted ++ [frameOf cmd data] :=
  ⟨_, writeCommand_timeout writeValue cmd data s hl hi, rfl, rfl, hl, rfl, rfl⟩

/-- Witness: `GetFirmwareVersion` sent from a fresh session with nothing
arriving. -/
theorem writeCommand_times_out_witness :
    ∃ s2, writeCommand (fun _ => true) GetFirmwareVersion [] freshSession = some (false, s2) ∧
      s2.millis = freshSession.millis + 4020 ∧ s2.pn532bleBuffer = [] ∧
      s2.pn532Responses = [] ∧ s2.cmdResponse = freshSession.cmdResponse ∧
      s2.transmitted = freshSession.transmitted ++ [frameOf GetFirmwareVersion []] :=
  writeCommand_times_out (fun _ => true) GetFirmwareVersion [] freshSession rfl rfl

/-! ## CRC-A and CRC-16/CCITT: C22, C23, C25 -/

/-- C22: `appendCrcA` applied to the empty byte sequence gives `63 63` (the
initial register 0x6363, low byte first), and `appendCrc16Ccitt` applied to
the empty byte sequence gives `00 00` (0xFFFF xor 0xFFFF). -/
theorem crc_golden_vectors_empty :
    appendCrcA [] = [0x63, 0x63] ∧ appendCrc16Ccitt [] = [0x00, 0x00] := by
  constructor <;> decide

theorem crcBit_xor (a b : Nat) : crcBit (a ^^^ b) = crcBit a ^^^ crcBit b := by
  unfold crcBit
  rw [Nat.xor_div_two, Nat.xor_mod_two_eq]
  by_cases ha : a % 2 = 1 <;> by_cases hb : b % 2 = 1
  · rw [if_neg (by omega), if_pos ha, if_pos hb]
    apply Nat.eq_of_testBit_eq
    intro i
    simp only [Nat.testBit_xor]
    cases Nat.testBit (a / 2) i <;> cases Nat.testBit (b / 2) i <;>
      cases Nat.testBit 33800 i <;> rfl
  · rw [if_pos (by omega), if_pos ha, if_neg hb]
    apply Nat.eq_of_testBit_eq
    intro i
    simp only [Nat.testBit_xor]
    cases Nat.testBit (a / 2) i <;> cases Nat.testBit (b / 2) i <;>
      cases Nat.testBit 33800 i <;> rfl
  · rw [if_pos (by omega), if_neg ha, if_pos hb]
    apply Nat.eq_of_testBit_eq
    intro i
    simp only [Nat.testBit_xor]
    cases Nat.testBit (a / 2) i <;> cases Nat.testBit (b / 2) i <;>
      cases Nat.testBit 33800 i <;> rfl
  · rw [if_neg (by omega), if_neg ha, if_neg hb]

theorem crcBit_iter_xor (n : Nat) : ∀ a b : Nat,
    crcBit^[n] (a ^^^ b) = crcBit^[n] a ^^^ crcBit^[n] b := by
  induction n with
  | zero => intro a b; rfl
  | succ n ih =>
    intro a b
    simp only [Function.iterate_succ, Function.comp_apply]
    rw [crcBit_xor, ih]

theorem crcBit_even (m : Nat) : crcBit (2 * m) = m := by
  unfold crcBit
  rw [if_neg (by omega)]
  omega

/-- Eight shifts move a register whose low byte is zero down by one byte. -/
theorem crcBit_iter_shift (h : Nat) : crcBit^[8] (256 * h) = h := by
  have e : 256 * h = 2 * (2 * (2 * (2 * (2 * (2 * (2 * (2 * h))))))) := by omega
  rw [e]
  simp only [Function.iterate_succ, Function.iterate_zero, Function.comp_apply, id, crcBit_even]

theorem shift_add_eq_xor (h x : Nat) (hx : x < 256) : 256 * h + x = (256 * h) ^^^ x := by
  apply Nat.eq_of_testBit_eq
  intro j
  have h1 := Nat.testBit_mul_pow_two_add h (show x < 2 ^ 8 by omega) j
  have h2 := @Nat.testBit_mul_pow_two 8 h j
  simp only [Nat.reducePow] at h1 h2
  rw [h1, Nat.testBit_xor, h2]
  by_cases hj : j < 8
  · have h8 : ¬ (8 ≤ j) := by omega
    simp [hj, h8]
  · have : x.testBit j = false := Nat.testBit_lt_two_pow (lt_of_lt_of_le hx (by
      calc 256 = 2 ^ 8 := by norm_num
        _ ≤ 2 ^ j := Nat.pow_le_pow_right (by norm_num) (by omega)))
    simp [hj, this]
    intro _; omega

theorem xor_mod_65536 (a c : Nat) : (a ^^^ c) % 65536 = a % 65536 ^^^ c % 65536 := by
  apply Nat.eq_of_testBit_eq
  intro i
  have e : (65536 : Nat) = 2 ^ 16 := by norm_num
  simp only [e, Nat.testBit_mod_two_pow, Nat.testBit_xor]
  cases decide (i < 16) <;> simp

set_option maxRecDepth 1000000 in
/-- The byte-wise step of `appendCrcA` on a register with zero high byte,
checked for the 256 values of the low byte. -/
theorem crcAStep_table : ∀ x < 256, crcBit^[8] x = crcAStep 0 x := by
  decide

/-- The high byte of the register passes through the byte-wise step
unchanged, one byte lower. -/
theorem crcAStep_split (crc b : Nat) (hc : crc < 65536) :
    crcAStep crc b = (crc / 256) ^^^ crcAStep 0 ((crc % 256) ^^^ b) := by
  unfold crcAStep
  simp only [Nat.and_pow_two_sub_one_eq_mod crc 8, Nat.zero_and, Nat.xor_zero,
    Nat.zero_shiftRight, Nat.zero_xor, Nat.shiftRight_eq_div_pow, Nat.reducePow,
    Nat.xor_comm b (crc % 256), Nat.zero_div, Nat.and_pow_two_sub_one_eq_mod 0 8, Nat.zero_mod]
  generalize (((crc % 256 ^^^ b) % 256 ^^^ ((crc % 256 ^^^ b) % 256) <<< 4) &&& 255) = ch at *
  rw [Nat.xor_assoc, Nat.xor_assoc, xor_mod_65536,
    Nat.mod_eq_of_lt (show crc / 256 < 65536 by omega), ← Nat.xor_assoc]

/-- The byte-wise step of `appendCrcA` is eight bit-serial shifts of the
register with the byte added at its low end. -/
theorem crcAStep_bitwise (crc b : Nat) (hc : crc < 65536) (hb : b < 256) :
    crcAStep crc b = crcBit^[8] (crc ^^^ b) := by
  have hx : (crc % 256) ^^^ b < 256 := @Nat.xor_lt_two_pow _ _ 8 (by omega) (by omega)
  rw [crcAStep_split crc b hc, ← crcAStep_table _ hx]
  have e : crc ^^^ b = (256 * (crc / 256)) ^^^ ((crc % 256) ^^^ b) := by
    rw [← Nat.xor_assoc, ← shift_add_eq_xor _ _ (Nat.mod_lt _ (by norm_num)), Nat.div_add_mod]
  rw [e, crcBit_iter_xor 8 (256 * (crc / 256)), crcBit_iter_shift]

theorem crcAStep_lt (crc b : Nat) : crcAStep crc b < 65536 := by
  unfold crcAStep
  exact Nat.mod_lt _ (by norm_num)

theorem crcA_register_lt : ∀ (D : List Nat) (c : Nat), c < 65536 → D.foldl crcAStep c < 65536 := by
  intro D
  induction D with
  | nil => intro c hc; exact hc
  | cons b rest ih => intro c _; exact ih _ (crcAStep_lt c b)

theorem crcA_register_bitwise : ∀ (D : List Nat) (c : Nat), (∀ b ∈ D, b < 256) → c < 65536 →
    D.foldl crcAStep c = D.foldl (fun crc b => crcBit^[8] (crc ^^^ b)) c := by
  intro D
  induction D with
  | nil => intro c _ _; rfl
  | cons b rest ih =>
    intro c hD hc
    simp only [List.foldl_cons]
    rw [← crcAStep_bitwise c b hc (hD b (List.mem_cons_self _ _))]
    exact ih _ (fun x hx => hD x (List.mem_cons_of_mem _ hx)) (crcAStep_lt c b)

/-- The two bytes `appendCrcA` appends are the low and the high byte of the
register after the loop. -/
theorem appendCrcA_register (D : List Nat) :
    appendCrcA D = D ++ [D.foldl crcAStep 0x6363 % 256, D.foldl crcAStep 0x6363 / 256] := by
  have hlt := crcA_register_lt D 0x6363 (by norm_num)
  unfold appendCrcA
  simp only [Nat.and_pow_two_sub_one_eq_mod _ 16, Nat.and_pow_two_sub_one_eq_mod _ 8,
    Nat.shiftRight_eq_div_pow, Nat.reducePow, Nat.mod_eq_of_lt hlt, Nat.mod_mod]
  rw [Nat.mod_eq_of_lt (show List.foldl crcAStep 25443 D / 256 < 256 by omega)]

/-- C23: for every byte sequence `D`, `appendCrcA` keeps `D` as a prefix and
appends exactly two bytes: the low byte, then the high byte of the 16-bit
value of the bit-serial reflected CRC with polynomial 0x8408, initial
register 0x6363 and no final XOR over `D`; for `D = 12 34` these are
`26 CF`. -/
theorem appendCrcA_bit_serial (D : List Nat) (hD : ∀ b ∈ D, b < 256) :
    appendCrcA D = D ++ [bitSerialCrcA D % 256, bitSerialCrcA D / 256] ∧
    bitSerialCrcA D < 65536 ∧
    (appendCrcA D).take D.length = D ∧ (appendCrcA D).length = D.length + 2 ∧
    appendCrcA [0x12, 0x34] = [0x12, 0x34, 0x26, 0xCF] := by
  have hreg : D.foldl crcAStep 0x6363 = bitSerialCrcA D :=
    crcA_register_bitwise D 0x6363 hD (by norm_num)
  have hlt := crcA_register_lt D 0x6363 (by norm_num)
  have happ := appendCrcA_register D
  rw [hreg] at happ hlt
  refine ⟨happ, hlt, ?_, ?_, by decide⟩
  · rw [happ, List.take_left]
  · rw [happ]; simp

theorem appendCrcA_bit_serial_witness :
    (∀ b ∈ [0x12, 0x34], b < 256) ∧
    appendCrcA [0x12, 0x34] =
      [0x12, 0x34] ++ [bitSerialCrcA [0x12, 0x34] % 256, bitSerialCrcA [0x12, 0x34] / 256] ∧
    bitSerialCrcA [0x12, 0x34] = 0xCF26 :=
  ⟨by decide, (appendCrcA_bit_serial [0x12, 0x34] (by decide)).1, by decide⟩

/-- C25: for every byte sequence `D`, running `appendCrcA` on the output of
`appendCrcA` on `D` (on `D` followed by its own CRC-A bytes) appends
`00 00`. -/
theorem appendCrcA_residue_zero (D : List Nat) :
    appendCrcA (appendCrcA D) = appendCrcA D ++ [0x00, 0x00] := by
  have hlt := crcA_register_lt D 0x6363 (by norm_num)
  rw [appendCrcA_register (appendCrcA D)]
  have hfold : (appendCrcA D).foldl crcAStep 0x6363 = 0 := by
    rw [appendCrcA_register D, List.foldl_append]
    simp only [List.foldl_cons, List.foldl_nil]
    rw [crcAStep_split _ (D.foldl crcAStep 0x6363 % 256) hlt, Nat.xor_self,
      crcAStep_split _ _ (show List.foldl crcAStep 0x6363 D / 256 ^^^ crcAStep 0 0 < 65536 by
        rw [show crcAStep 0 0 = 0 by decide, Nat.xor_zero]; omega)]
    rw [show crcAStep 0 0 = 0 by decide, Nat.xor_zero,
      Nat.div_eq_of_lt (show List.foldl crcAStep 0x6363 D / 256 < 256 by omega),
      Nat.mod_eq_of_lt (show List.foldl crcAStep 0x6363 D / 256 < 256 by omega), Nat.xor_self]
    decide
  rw [hfold]

/-! ## Mifare Classic authentication: C21 -/

/-- The result of `mfAuth` in terms of the result of its one exchange, for a
UID of at least four bytes and a key of six bytes. -/
theorem mfAuth_of_exchange (writeValue : List Nat → Bool) (uid : List Nat) (block : Nat)
    (key : List Nat) (useKeyA : Bool) (s s2 : Session) (res : Bool)
    (hu : 4 ≤ uid.length) (hk : key.length = 6)
    (hw : writeCommand writeValue InDataExchange
      ([0x01, if useKeyA then 0x60 else 0x61, block] ++ key ++ uid.drop (uid.length - 4)) s =
        some (res, s2))
    (hd : s2.cmdResponse.dataSize ≤ s2.cmdResponse.data.length) :
    mfAuth writeValue uid block key useKeyA s =
      some (res && decide (s2.cmdResponse.dataSize ≥ 1 ∧ s2.cmdResponse.data[0]? = some 0x00),
        s2) := by
  unfold mfAuth
  rw [if_neg (by omega)]
  simp only [List.take_of_length_le (le_of_eq hk), List.cons_append, List.nil_append,
    List.singleton_append] at hw ⊢
  rw [hw]
  simp only
  cases res with
  | false => simp
  | true =>
    simp only [Bool.not_true, Bool.false_eq_true, if_false, Bool.true_and]
    by_cases h1 : s2.cmdResponse.dataSize ≥ 1
    · rw [if_pos h1]
      have hpos : 0 < s2.cmdResponse.data.length := by omega
      rw [List.getElem?_eq_getElem hpos]
      by_cases h0 : s2.cmdResponse.data[0] = 0 <;> simp [h1, h0]
    · rw [if_neg h1]
      simp [h1]

/-- C21: for every UID of at least 4 bytes, block number, 6-byte key and key
selector, `mfAuth` sends one `InDataExchange` (0x40) command whose 13-byte
payload is `01`, `60` for key A or `61` for key B, the block, the key and the
last four UID bytes, and it returns true exactly when the exchange succeeds
and the response payload is non-empty with first byte 0x00: in terms of
the result of `writeCommand`, when a reply arrives in time, and when nothing
arrives. -/
theorem mfAuth_contract (writeValue : List Nat → Bool) (uid : List Nat) (block : Nat)
    (key : List Nat) (useKeyA : Bool) (s : Session)
    (hu : 4 ≤ uid.length) (hk : key.length = 6) :
    ([0x01, if useKeyA then 0x60 else 0x61, block] ++ key ++
      uid.drop (uid.length - 4)).length = 13 ∧
    (∀ (res : Bool) (s2 : Session),
      writeCommand writeValue InDataExchange
        ([0x01, if useKeyA then 0x60 else 0x61, block] ++ key ++ uid.drop (uid.length - 4)) s =
          some (res, s2) →
      s2.cmdResponse.dataSize ≤ s2.cmdResponse.data.length →
      mfAuth writeValue uid block key useKeyA s =
        some (res && decide (s2.cmdResponse.dataSize ≥ 1 ∧
          s2.cmdResponse.data[0]? = some 0x00), s2)) ∧
    (∀ (r : Reply) (rest : List (List (List Nat))), r.wellFormed → s.pn532Responses = [] →
      s.incoming = r.script InDataExchange ++ rest →
      ∃ s2, mfAuth writeValue uid block key useKeyA s =
          some (writeValue (frameOf InDataExchange
            ([0x01, if useKeyA then 0x60 else 0x61, block] ++ key ++
              uid.drop (uid.length - 4))) && decide (r.payload.head? = some 0x00), s2) ∧
        s2.cmdResponse = r.response InDataExchange ∧ s2.incoming = rest ∧
        s2.transmitted = s.transmitted ++ [frameOf InDataExchange
          ([0x01, if useKeyA then 0x60 else 0x61, block] ++ key ++
            uid.drop (uid.length - 4))]) ∧
    (s.pn532Responses = [] → s.incoming = [] →
      ∃ s2, mfAuth writeValue uid block key useKeyA s = some (false, s2) ∧
        s2.millis = s.millis + 4020 ∧
        s2.transmitted = s.transmitted ++ [frameOf InDataExchange
          ([0x01, if useKeyA then 0x60 else 0x61, block] ++ key ++
            uid.drop (uid.length - 4))]) := by
  refine ⟨?_, ?_, ?_, ?_⟩
  · simp only [List.length_append, List.length_cons, List.length_nil, List.length_drop, hk]
    omega
  · intro res s2 hw hd
    exact mfAuth_of_exchange writeValue uid block key useKeyA s s2 res hu hk hw hd
  · intro r rest hr hl hi
    obtain ⟨s2, hw, _, hrest, hresp, htx⟩ := exchange_answered writeValue InDataExchange
      ([0x01, if useKeyA then 0x60 else 0x61, block] ++ key ++ uid.drop (uid.length - 4))
      s r rest (by decide) hr hl hi
    refine ⟨s2, ?_, hresp, hrest, htx⟩
    rw [mfAuth_of_exchange writeValue uid block key useKeyA s s2 _ hu hk hw
      (by rw [hresp]; exact le_refl _)]
    rw [hresp]
    cases hp : r.payload with
    | nil => simp [Reply.response, hp]
    | cons a t => simp [Reply.response, hp]
  · intro hl hi
    obtain ⟨s2, hw, _, _, hresp, hms, htx⟩ := exchange_timeout writeValue InDataExchange
      ([0x01, if useKeyA then 0x60 else 0x61, block] ++ key ++ uid.drop (uid.length - 4))
      s hl hi
    refine ⟨s2, ?_, hms, htx⟩
    unfold mfAuth
    rw [if_neg (by omega)]
    simp only [List.take_of_length_le (le_of_eq hk), List.cons_append, List.nil_append,
      List.singleton_append] at hw ⊢
    rw [hw]
    rfl

/-- Witness of C21: key A authentication of block 8 with the default key on a
tag with a 7-byte UID, answered at once by the payload `00`. -/
theorem mfAuth_contract_witness :
    ∃ s2, mfAuth (fun _ => true) [0x04, 0x11, 0x22, 0x33, 0x44, 0x55, 0x66] 8
        [0xFF, 0xFF, 0xFF, 0xFF, 0xFF, 0xFF] true
        { freshSession with incoming := (quickReply [0x00]).script InDataExchange } =
          some (true, s2) ∧
      s2.transmitted = [[0x00, 0x00, 0xFF, 0x0F, 0xF1, 0xD4, 0x40, 0x01, 0x60, 0x08, 0xFF, 0xFF,
        0xFF, 0xFF, 0xFF, 0xFF, 0x33, 0x44, 0x55, 0x66, 0x57, 0x00]] := by
  obtain ⟨s2, h, _, _, htx⟩ := (mfAuth_contract (fun _ => true)
    [0x04, 0x11, 0x22, 0x33, 0x44, 0x55, 0x66] 8 [0xFF, 0xFF, 0xFF, 0xFF, 0xFF, 0xFF] true
    { freshSession with incoming := (quickReply [0x00]).script InDataExchange }
    (by decide) rfl).2.2.1 (quickReply [0x00]) [] (by decide) rfl (by simp)
  exact ⟨s2, h, by rw [htx]; decide⟩

/-! ## Short replies in `selectTag`: C24 -/

set_option maxRecDepth 100000 in
/-- C24, evaluation at the failing input: when the reply to the CL1
anti-collision command `93 20`, or to the CL2 anti-collision command `95 20`,
has an empty payload, `selectTag` reads element 0 of the empty reply
(`anti_coll_result[0]`, `anti_coll2_result[0]`), outside the vector, instead
of returning false; with the one-byte reply `01` in the same place it
returns false. -/
theorem selectTag_reads_empty_anticoll_reply :
    selectTag (fun _ => true) { freshSession with incoming := anticollTraffic [] } = none ∧
    (selectTag (fun _ => true) { freshSession with incoming := anticollTraffic [0x01] }).map
      Prod.fst = some false ∧
    selectTag (fun _ => true) { freshSession with incoming := anticoll2Traffic [] } = none ∧
    (selectTag (fun _ => true) { freshSession with incoming := anticoll2Traffic [0x01] }).map
      Prod.fst = some false := by
  decide

/-! ## Size of accepted frames: C27 -/

set_option maxRecDepth 1000000 in
/-- C27, evaluation at the failing input: `isCompleteFrame` accepts a reply of
216 bytes whose payload size, byte 9 minus 2, is 201, more than the 200
bytes of `data`; and it accepts a reply of 268 bytes, more than the 250
bytes of `raw`.  In both cases the copies of `NotifyCallBack` leave the
arrays of the record. -/
theorem isCompleteFrame_accepts_oversized :
    ((isCompleteFrame { freshSession with pn532bleBuffer := longReply } longReply
        longReply.length).map Prod.fst = some true ∧
      longReply.length = 216 ∧ longReply[9]? = some 203 ∧ (203 + 256 - 2) % 256 = 201 ∧
      copyData longReply 201 = none ∧ NotifyCallBack freshSession longReply = none) ∧
    ((isCompleteFrame { freshSession with pn532bleBuffer := longestReply } longestReply
        longestReply.length).map Prod.fst = some true ∧
      longestReply.length = 268 ∧ longestReply[9]? = some 255 ∧
      NotifyCallBack freshSession longestReply = none) := by
  decide

/-! ## Hex strings there and back: C26 -/

set_option maxRecDepth 100000 in
/-- The two uppercase digits of a byte, read by `std::stoul` in base 16, give
the byte. -/
theorem stoul_upperHexDigits : ∀ b < 256,
    stoul [upperHexDigit (b / 16), upperHexDigit (b % 16)] = some b := by
  decide

theorem upperHexDigit_mem : ∀ d < 16, upperHexDigit d ∈ "0123456789ABCDEF".data := by
  decide

theorem hexRendering_mem : ∀ (bytes : List Nat), (∀ b ∈ bytes, b < 256) →
    ∀ c ∈ hexRendering bytes, c ∈ "0123456789ABCDEF".data := by
  intro bytes
  induction bytes with
  | nil => intro _ c hc; simp [hexRendering] at hc
  | cons b rest ih =>
    intro hb c hc
    have hlt := hb b (List.mem_cons_self _ _)
    simp only [hexRendering, List.mem_cons] at hc
    rcases hc with hc | hc | hc
    · rw [hc]; exact upperHexDigit_mem _ (by omega)
    · rw [hc]; exact upperHexDigit_mem _ (by omega)
    · exact ih (fun x hx => hb x (List.mem_cons_of_mem _ hx)) c hc

theorem hexStringPairs_rendering : ∀ (bytes : List Nat), (∀ b ∈ bytes, b < 256) →
    hexStringPairs (hexRendering bytes) = some bytes := by
  intro bytes
  induction bytes with
  | nil => intro _; rfl
  | cons b rest ih =>
    intro hb
    have hlt := hb b (List.mem_cons_self _ _)
    simp only [hexRendering, hexStringPairs]
    rw [stoul_upperHexDigits b hlt, ih (fun x hx => hb x (List.mem_cons_of_mem _ hx))]
    simp only [Nat.mod_eq_of_lt hlt]

theorem hexStringToUint8Array_even (str : String) (h : str.length % 2 = 0) :
    hexStringToUint8Array str = hexStringPairs str.data := by
  rw [hexStringToUint8Array, if_neg (by omega)]

theorem hexStringToUint8Array_odd (str : String) (h : str.length % 2 = 1) :
    hexStringToUint8Array str = hexStringToUint8Array ("0" ++ str) := by
  rw [hexStringToUint8Array, if_pos (by omega)]

/-- C26: for every byte sequence `B` of at most 255 bytes,
`bytes2HexString(B, len(B))` is a string of exactly `2 * len(B)` characters
drawn from `0`-`9` and `A`-`F`, and `hexStringToUint8Array` applied to it
returns `B`; and for every string `s` of odd length `hexStringToUint8Array(s)`
equals `hexStringToUint8Array("0" ++ s)`. -/
theorem hex_round_trip (B : List Nat) (hB : ∀ b ∈ B, b < 256) (hlen : B.length ≤ 255) :
    (∃ str, bytes2HexString B (B.length % 256) = some str ∧ str.length = 2 * B.length ∧
      (∀ c ∈ str.data, c ∈ "0123456789ABCDEF".data) ∧ hexStringToUint8Array str = some B) ∧
    (∀ s : String, s.length % 2 = 1 →
      hexStringToUint8Array s = hexStringToUint8Array ("0" ++ s)) := by
  refine ⟨⟨String.mk (hexRendering B), ?_, ?_, ?_, ?_⟩, hexStringToUint8Array_odd⟩
  · rw [Nat.mod_eq_of_lt (by omega), bytes2HexString_inbounds B B.length (le_refl _),
      List.take_length, uidHexLoop_rendering B hB]
  · exact hexRendering_length B
  · exact hexRendering_mem B hB
  · rw [hexStringToUint8Array_even _ (by
      show (hexRendering B).length % 2 = 0
      rw [hexRendering_length]; omega)]
    exact hexStringPairs_rendering B hB

/-- Witness of C26: the bytes `00 FF 1A` give the string `00FF1A` and come
back from it. -/
theorem hex_round_trip_witness :
    (∃ str, bytes2HexString [0x00, 0xFF, 0x1A] ([0x00, 0xFF, 0x1A].length % 256) = some str ∧
      str.length = 2 * [0x00, 0xFF, 0x1A].length ∧
      (∀ c ∈ str.data, c ∈ "0123456789ABCDEF".data) ∧
      hexStringToUint8Array str = some [0x00, 0xFF, 0x1A]) ∧
    (∀ s : String, s.length % 2 = 1 →
      hexStringToUint8Array s = hexStringToUint8Array ("0" ++ s)) :=
  hex_round_trip [0x00, 0xFF, 0x1A] (by decide) (by decide)

/-! ## Further properties of the CRC-16/CCITT helper -/

/-- For every byte sequence `D`, `appendCrc16Ccitt` keeps `D` as a prefix and
appends exactly two bytes; for the nine ASCII digits `1` to `9` these are
`6E 90`. -/
theorem appendCrc16Ccitt_appends_two (D : List Nat) :
    (appendCrc16Ccitt D).take D.length = D ∧ (appendCrc16Ccitt D).length = D.length + 2 ∧
    appendCrc16Ccitt [0x31, 0x32, 0x33, 0x34, 0x35, 0x36, 0x37, 0x38, 0x39] =
      [0x31, 0x32, 0x33, 0x34, 0x35, 0x36, 0x37, 0x38, 0x39, 0x6E, 0x90] := by
  refine ⟨?_, ?_, by decide⟩
  · unfold appendCrc16Ccitt
    simp only [List.take_left]
  · unfold appendCrc16Ccitt
    simp

end PN532
